import Mathlib

/-!
Verification of the mal-gtk anime serializer and catalog store.

Shallow embedding of `src/anime_serializer.cpp` (field map, tag-stream
deserializer, record serializer) and of the collection comparator in
`src/mal.hpp`, with theorems settling the specification claims.
-/

set_option linter.unusedVariables false
set_option linter.unreachableTactic false
set_option linter.unusedTactic false
set_option maxRecDepth 8000

namespace MalGtk

/-- Field tags, from `enum FIELDS` in anime_serializer.cpp (lines 25-31). -/
inductive FIELDS where
  | FIELDNONE | FIELDTEXT
  | ANIMEDBID | SERIESTITLE | SERIESTYPE | SERIESEPISODES | SERIESSTATUS
  | SERIESDATEBEGIN | SERIESDATEEND | SERIESIMAGEURL | SERIESSYNONYMS
  | ANIME | ENTRY | MYID | MYWATCHEDEPISODES | MYSTARTDATE | MYFINISHDATE | MYSCORE
  | MYSTATUS | MYREWATCHING | MYREWATCHINGEP | MYLASTUPDATED | MYTAGS
  | USERID | SYNOPSIS
  deriving DecidableEq, Repr

/-- The (wire element name, field tag) pairs of `initialize_field_map`
(anime_serializer.cpp lines 35-82). -/
def field_pairs : List (String × FIELDS) :=
  [("my_id", .MYID),
   ("series_animedb_id", .ANIMEDBID),
   ("id", .ANIMEDBID),
   ("series_title", .SERIESTITLE),
   ("title", .SERIESTITLE),
   ("series_type", .SERIESTYPE),
   ("type", .SERIESTYPE),
   ("series_episodes", .SERIESEPISODES),
   ("episodes", .SERIESEPISODES),
   ("series_status", .SERIESSTATUS),
   ("status", .SERIESSTATUS),
   ("series_start", .SERIESDATEBEGIN),
   ("start_date", .SERIESDATEBEGIN),
   ("series_end", .SERIESDATEEND),
   ("end_date", .SERIESDATEEND),
   ("series_image", .SERIESIMAGEURL),
   ("image", .SERIESIMAGEURL),
   ("series_synonyms", .SERIESSYNONYMS),
   ("synonyms", .SERIESSYNONYMS),
   ("my_score", .MYSCORE),
   ("score", .MYSCORE),
   ("english", .SERIESSYNONYMS),
   ("my_watched_episodes", .MYWATCHEDEPISODES),
   ("my_start_date", .MYSTARTDATE),
   ("my_finish_date", .MYFINISHDATE),
   ("my_status", .MYSTATUS),
   ("my_rewatching", .MYREWATCHING),
   ("my_rewatching_ep", .MYREWATCHINGEP),
   ("my_last_updated", .MYLASTUPDATED),
   ("my_tags", .MYTAGS),
   ("user_id", .USERID),
   ("synopsis", .SYNOPSIS),
   ("entry", .ENTRY),
   ("anime", .ANIME),
   ("#text", .FIELDTEXT),
   ("user_name", .FIELDNONE),
   ("user_watching", .FIELDNONE),
   ("user_completed", .FIELDNONE),
   ("user_onhold", .FIELDNONE),
   ("user_dropped", .FIELDNONE),
   ("user_plantowatch", .FIELDNONE),
   ("user_days_spent_watching", .FIELDNONE),
   ("myinfo", .FIELDNONE),
   ("myanimelist", .FIELDNONE)]

/-- Wire element name → field tag (the `std::map` built by
`initialize_field_map`).  `none` models a name absent from the map
(an unmapped/unknown name). -/
def field_map (s : String) : Option FIELDS :=
  List.lookup s field_pairs

/-! ## Decimal rendering and parsing

`std::to_string` on an integer renders it in decimal; the embedding uses its
own decimal renderer so that its arithmetic properties are provable. -/

/-- Fuel-driven digit extraction (structural recursion on the fuel, so
that the kernel can evaluate it). -/
def natDigsAux (f n : Nat) : List Char :=
  match n, f with
  | 0, _ => []
  | _+1, 0 => []
  | n+1, f+1 => natDigsAux f ((n+1)/10) ++ [Char.ofNat (48 + (n+1) % 10)]

/-- Decimal digits of `n`, most significant first (empty for 0).  `n`
itself is always enough fuel. -/
def natDigs (n : Nat) : List Char := natDigsAux n n

/-- Decimal rendering of a natural number, as `std::to_string` produces. -/
def natRepr (n : Nat) : String := if n = 0 then "0" else String.mk (natDigs n)

/-- Decimal rendering of an integer, as `std::to_string(int)` produces. -/
def intRepr : Int → String
  | .ofNat n => natRepr n
  | .negSucc n => "-" ++ natRepr (n+1)

/-- Decimal parse of a digit list (as `strtol`-style accumulation). -/
def parseNatChars (l : List Char) : Nat :=
  l.foldl (fun acc c => acc * 10 + (c.toNat - 48)) 0

/-- Decimal parse of an integer string (optional leading minus sign). -/
def parseIntStr (s : String) : Int :=
  match s.toList with
  | '-' :: rest => - (parseNatChars rest : Int)
  | l => (parseNatChars l : Int)

/-! ## The item record

`Anime` is declared in `anime.hpp`, which is not under src/. -/

/-- Modelled from the spec: the item record (`class Anime`, from `anime.hpp`
which is not under src/): identity fields (integer catalog id, integer
user-list id), descriptive fields, and user-progress fields (§3 Data Model).
Field names follow the accessors used by anime_serializer.cpp. -/
structure Anime where
  series_itemdb_id : Int := 0
  series_title : String := ""
  series_type : String := ""
  series_episodes : Int := 0
  series_status : String := ""
  series_date_begin : String := ""
  series_date_end : String := ""
  image_url : String := ""
  series_synonyms : List String := []
  series_synopsis : String := ""
  my_id : Int := 0
  episodes : Int := 0
  status : Int := 0
  score : Int := 0
  downloaded_items : Int := 0
  date_start : String := ""
  date_finish : String := ""
  enable_reconsuming : Bool := false
  rewatch_episode : Int := 0
  last_updated : String := ""
  tags : List String := []
  deriving DecidableEq, Repr

/-- Modelled from the spec: `Anime`'s field setters (declared in `anime.hpp`,
not under src/).  Integer-typed fields parse their text decimally, string
fields store the cleaned text, the multi-value tags field splits on the
`"; "` separator, and the re-consumption flag reads `"1"` as true. -/
def set_series_itemdb_id (a : Anime) (s : String) : Anime := { a with series_itemdb_id := parseIntStr s }
def set_series_title (a : Anime) (s : String) : Anime := { a with series_title := s }
def set_series_type (a : Anime) (s : String) : Anime := { a with series_type := s }
def set_series_episodes (a : Anime) (s : String) : Anime := { a with series_episodes := parseIntStr s }
def set_series_status (a : Anime) (s : String) : Anime := { a with series_status := s }
def set_series_date_begin (a : Anime) (s : String) : Anime := { a with series_date_begin := s }
def set_series_date_end (a : Anime) (s : String) : Anime := { a with series_date_end := s }
def set_image_url (a : Anime) (s : String) : Anime := { a with image_url := s }
def set_series_synonyms (a : Anime) (s : String) : Anime := { a with series_synonyms := s.splitOn "; " }
def set_series_synopsis (a : Anime) (s : String) : Anime := { a with series_synopsis := s }
def set_id (a : Anime) (s : String) : Anime := { a with my_id := parseIntStr s }
def set_episodes (a : Anime) (s : String) : Anime := { a with episodes := parseIntStr s }
def set_status (a : Anime) (s : String) : Anime := { a with status := parseIntStr s }
def set_score (a : Anime) (s : String) : Anime := { a with score := parseIntStr s }
def set_date_start (a : Anime) (s : String) : Anime := { a with date_start := s }
def set_date_finish (a : Anime) (s : String) : Anime := { a with date_finish := s }
def set_enable_reconsuming (a : Anime) (s : String) : Anime := { a with enable_reconsuming := s = "1" }
def set_rewatch_episode (a : Anime) (s : String) : Anime := { a with rewatch_episode := parseIntStr s }
def set_last_updated (a : Anime) (s : String) : Anime := { a with last_updated := s }
def set_tags (a : Anime) (s : String) : Anime := { a with tags := s.splitOn "; " }

/-- Field tag → setter, from `initialize_member_map`
(anime_serializer.cpp lines 84-110).  Tags absent from the `std::map`
(e.g. `ENTRY`, `ANIME`, `FIELDNONE`) return `none`. -/
def member_map : FIELDS → Option (Anime → String → Anime)
  | .ANIMEDBID => some set_series_itemdb_id
  | .SERIESTITLE => some set_series_title
  | .SERIESDATEBEGIN => some set_series_date_begin
  | .SERIESDATEEND => some set_series_date_end
  | .SERIESIMAGEURL => some set_image_url
  | .SERIESSYNONYMS => some set_series_synonyms
  | .SYNOPSIS => some set_series_synopsis
  | .SERIESTYPE => some set_series_type
  | .SERIESSTATUS => some set_series_status
  | .SERIESEPISODES => some set_series_episodes
  | .MYTAGS => some set_tags
  | .MYSTARTDATE => some set_date_start
  | .MYFINISHDATE => some set_date_finish
  | .MYID => some set_id
  | .MYLASTUPDATED => some set_last_updated
  | .MYSCORE => some set_score
  | .MYREWATCHING => some set_enable_reconsuming
  | .MYSTATUS => some set_status
  | .MYWATCHEDEPISODES => some set_episodes
  | .MYREWATCHINGEP => some set_rewatch_episode
  | _ => none

/-! ## The token stream -/

/-- The libxml2 reader node kinds the deserializer distinguishes
(anime_serializer.cpp lines 175-210). -/
inductive NodeType where
  | element | endElement | text | sigWhitespace | other
  deriving DecidableEq, Repr

/-- One pull-parser token: node kind, element name (`"#text"` for text
nodes, as `xmlTextReaderConstName` reports), and the node's text value
(already passed through the injected text-cleaning function, per §4.2). -/
structure Token where
  nodeType : NodeType
  name : String
  value : String
  deriving DecidableEq, Repr

def startTok (n : String) : Token := ⟨.element, n, ""⟩
def endTok (n : String) : Token := ⟨.endElement, n, ""⟩
def textTok (v : String) : Token := ⟨.text, "#text", v⟩

/-- Diagnostic events, mirroring the `std::cerr` messages of `deserialize`. -/
inductive LogEvent where
  | unexpectedField (name : String)
  | textProblem
  | emptyText (name : String)
  | unexpectedNode (name value : String)
  deriving DecidableEq, Repr

/-- The loop state of `AnimeSerializer::deserialize`
(anime_serializer.cpp lines 153-159): output list, accumulator record,
current and previous field tags, and the three shape-tracking booleans. -/
structure DState where
  res : List Anime := []
  anime : Anime := {}
  field : FIELDS := .FIELDNONE
  prev_field : FIELDS := .FIELDNONE
  entry_after_anime : Bool := false
  seen_anime : Bool := false
  seen_entry : Bool := false
  log : List LogEvent := []
  deriving DecidableEq, Repr

/-- The field-map lookup done for every non-empty-named token
(anime_serializer.cpp lines 167-173): a known name shifts `field` into
`prev_field` and installs the resolved tag; an unknown name only logs. -/
def resolveStep (s : DState) (name : String) : DState :=
  match field_map name with
  | some f => { s with prev_field := s.field, field := f }
  | none => { s with log := s.log ++ [.unexpectedField name] }

/-- The `XML_READER_TYPE_ELEMENT` case (lines 176-180): update the
shape-tracking flags, `entry_after_anime` reading the pre-update
`seen_anime`/`seen_entry`. -/
def elementStep (s : DState) : DState :=
  { s with
    entry_after_anime :=
      if s.field = .ENTRY ∧ s.seen_anime = true ∧ s.seen_entry = false then true
      else s.entry_after_anime
    seen_entry := if s.field = .ENTRY then true else s.seen_entry
    seen_anime := if s.field = .ANIME then true else s.seen_anime }

/-- The `XML_READER_TYPE_END_ELEMENT` case (lines 181-188): finalize the
accumulator when the tag matches the active per-item wrapper, then reset
`field`. -/
def endElementStep (s : DState) : DState :=
  if (s.entry_after_anime = true ∧ s.field = .ENTRY) ∨
     (s.entry_after_anime = false ∧ s.field = .ANIME) then
    { s with res := s.res ++ [s.anime], anime := {}, field := .FIELDNONE }
  else
    { s with field := .FIELDNONE }

/-- The `XML_READER_TYPE_TEXT` case (lines 189-202): sanity-log when the
resolved tag is not the text tag; a non-empty value is dispatched to the
setter registered for `prev_field` (if any), an empty value is logged. -/
def textStep (s : DState) (name value : String) : DState :=
  let s1 := if s.field = .FIELDTEXT then s else { s with log := s.log ++ [.textProblem] }
  if value = "" then { s1 with log := s1.log ++ [.emptyText name] }
  else
    match member_map s1.prev_field with
    | some setter => { s1 with anime := setter s1.anime value }
    | none => s1

/-- One iteration of the read loop (anime_serializer.cpp lines 160-212):
tokens with an empty name are skipped wholesale; otherwise the field map is
consulted and the node-type switch runs. -/
def step (s : DState) (t : Token) : DState :=
  if t.name = "" then s
  else
    let s1 := resolveStep s t.name
    match t.nodeType with
    | .element => elementStep s1
    | .endElement => endElementStep s1
    | .text => textStep s1 t.name t.value
    | .sigWhitespace => s1
    | .other => { s1 with log := s1.log ++ [.unexpectedNode t.name t.value] }

/-- `AnimeSerializer::deserialize` over an already-tokenized stream:
fold the loop body over the tokens and return the finalized records. -/
def deserialize (ts : List Token) : List Anime :=
  (ts.foldl step {}).res

/-! ## The two wire shapes

From the comment at anime_serializer.cpp lines 136-139: search results are
`<anime><entry>..</entry><entry>..</entry></anime>` (shape A), myanimelist
results are `<entry><anime>..</anime><anime>..</anime></entry>` (shape B).
A logical item is the ordered list of its (element name, text) fields. -/

/-- Token rendering of one data field: start element, text node when the
body is non-empty (a tokenizer emits no text node for an empty body), end
element. -/
def fieldTokens (p : String × String) : List Token :=
  [startTok p.1] ++ (if p.2 = "" then [] else [textTok p.2]) ++ [endTok p.1]

/-- Token rendering of one logical item's fields. -/
def itemTokens (it : List (String × String)) : List Token :=
  it.flatMap fieldTokens

/-- Shape-A stream (search results): per-item wrapper `entry` nested inside
the outer `anime` element. -/
def shapeA (items : List (List (String × String))) : List Token :=
  [startTok "anime"] ++
    items.flatMap (fun it => [startTok "entry"] ++ itemTokens it ++ [endTok "entry"]) ++
    [endTok "anime"]

/-- Shape-B stream (myanimelist): per-item wrapper `anime` nested inside
the outer `entry` element. -/
def shapeB (items : List (List (String × String))) : List Token :=
  [startTok "entry"] ++
    items.flatMap (fun it => [startTok "anime"] ++ itemTokens it ++ [endTok "anime"]) ++
    [endTok "entry"]

/-- An item is valid when none of its field elements reuses one of the two
wrapper names. -/
def okItems (items : List (List (String × String))) : Bool :=
  items.all (fun it => it.all (fun p => p.1 ≠ "anime" ∧ p.1 ≠ "entry"))

/-! ## Date rendering (serialize) -/

/-- A calendar date as `Glib::Date` holds it. -/
structure GDate where
  month : Nat
  day : Nat
  year : Nat
  deriving DecidableEq, Repr

/-- Modelled from the spec: `Glib::Date::set_parse` (glibmm is external to
the repository).  The record's date strings use the service's
`"YYYY-MM-DD"` form (§3: start dates such as `"2020-04-.."`); a string of
that exact shape with a plausible month and day parses, anything else is
invalid. -/
def glibDateParse (s : String) : Option GDate :=
  match s.toList with
  | [y1, y2, y3, y4, '-', m1, m2, '-', d1, d2] =>
    if (y1.isDigit && y2.isDigit && y3.isDigit && y4.isDigit &&
        m1.isDigit && m2.isDigit && d1.isDigit && d2.isDigit) = true then
      if 1 ≤ parseNatChars [m1, m2] ∧ parseNatChars [m1, m2] ≤ 12 ∧
         1 ≤ parseNatChars [d1, d2] ∧ parseNatChars [d1, d2] ≤ 31 ∧
         parseNatChars [y1, y2, y3, y4] ≤ 9999 then
        some ⟨parseNatChars [m1, m2], parseNatChars [d1, d2], parseNatChars [y1, y2, y3, y4]⟩
      else none
    else none
  | _ => none

/-- Zero-padded two-digit rendering (`%m`/`%d`). -/
def pad2 (n : Nat) : String := (if n < 10 then "0" else "") ++ natRepr n

/-- Zero-padded four-digit rendering (`%Y`). -/
def pad4 (n : Nat) : String :=
  (if n < 10 then "000" else if n < 100 then "00" else if n < 1000 then "0" else "") ++ natRepr n

/-- `Glib::Date::format_string("%m%d%Y")`: month, day, year, zero-padded. -/
def formatMMDDYYYY (d : GDate) : String := pad2 d.month ++ pad2 d.day ++ pad4 d.year

/-- The date rendering of `AnimeSerializer::serialize`
(anime_serializer.cpp lines 249-262): a valid date renders `%m%d%Y`, an
invalid one renders nothing. -/
def renderDate (s : String) : String :=
  match glibDateParse s with
  | some d => formatMMDDYYYY d
  | none => ""

/-! ## The record serializer -/

/-- The ordered (element name, body) pairs `AnimeSerializer::serialize`
emits between `<entry>` and `</entry>` (anime_serializer.cpp lines
225-291).  Commented-out bodies in the source render as empty bodies. -/
def serializeFields (a : Anime) : List (String × String) :=
  [("episode", intRepr a.episodes),
   ("status", intRepr a.status),
   ("score", intRepr a.score),
   ("downloaded_episodes", intRepr a.downloaded_items),
   ("storage_type", ""),
   ("storage_value", ""),
   ("times_rewatched", ""),
   ("rewatch_value", ""),
   ("date_start", renderDate a.date_start),
   ("date_finish", renderDate a.date_finish),
   ("priority", ""),
   ("enable_discussion", ""),
   ("enable_rewatching", if a.enable_reconsuming then "1" else "0"),
   ("comments", ""),
   ("fansub_group", ""),
   ("tags", String.intercalate "; " a.tags),
   ("rewatch_episode", intRepr a.rewatch_episode)]

/-- One serialized element: `<name>body</name>`. -/
def elemStr (p : String × String) : String :=
  "<" ++ p.1 ++ ">" ++ p.2 ++ "</" ++ p.1 ++ ">"

/-- Concatenation of a list of rendered pieces. -/
def sjoin : List String → String
  | [] => ""
  | x :: l => x ++ sjoin l

/-- `AnimeSerializer::serialize` (anime_serializer.cpp lines 221-294):
the XML declaration, then every field element in fixed order inside an
`entry` element. -/
def serialize (a : Anime) : String :=
  "<?xml version=\"1.0\" encoding=\"UTF-8\"?><entry>" ++
  sjoin ((serializeFields a).map elemStr) ++
  "</entry>"

/-- The serialized body as a token stream: what a pull tokenizer yields on
`serialize`'s output past the XML declaration. -/
def serializeTokens (a : Anime) : List Token :=
  [startTok "entry"] ++ (serializeFields a).flatMap fieldTokens ++ [endTok "entry"]

/-- A minimal valid envelope for deserializing a serialized body: wrap it
in the outer `anime` element (giving a shape-A stream of one item). -/
def wrapAnime (ts : List Token) : List Token :=
  [startTok "anime"] ++ ts ++ [endTok "anime"]

/-! ## The catalog collection order (mal.hpp) -/

/-- Byte-wise lexicographic strict order on character lists, as
`std::string`'s `operator<`/`compare` order the bytes. -/
def lexLt : List Char → List Char → Bool
  | [], [] => false
  | [], _ :: _ => true
  | _ :: _, [] => false
  | a :: as, b :: bs =>
    if a.toNat < b.toNat then true
    else if b.toNat < a.toNat then false
    else lexLt as bs

/-- `a < b` for strings, byte-wise lexicographic. -/
def strLt (a b : String) : Bool := lexLt a.toList b.toList

/-- `std::string::substr(0, n)`: the first `n` characters (fewer when the
string is shorter). -/
def strTake (s : String) (n : Nat) : String := String.mk (s.toList.take n)

/-- The sign of `std::string::compare`: negative (`lt`) / positive (`gt`)
/ zero (`eq`). -/
def strCompare (a b : String) : Ordering :=
  if strLt a b then .lt else if strLt b a then .gt else .eq

/-- `MAL::MALItemComparator` (mal.hpp lines 177-188): descending by the
first seven characters of the series start date (the year-month prefix),
ties broken by ascending title. -/
def MALItemComparator (l r : Anime) : Bool :=
  match strCompare (strTake l.series_date_begin 7) (strTake r.series_date_begin 7) with
  | .eq => match strCompare l.series_title r.series_title with
           | .lt => true
           | _ => false
  | .gt => true
  | .lt => false

/-- Comparator-equivalence: neither element orders before the other. -/
def equivMAL (a b : Anime) : Bool :=
  !(MALItemComparator a b) && !(MALItemComparator b a)

/-- Modelled from the spec: `std::set` insertion (the collections
`m_anime_list` etc. of mal.hpp lines 190-197 are `std::set`s ordered by
`MALItemComparator`; the client code inserting into them is not under
src/).  Inserting an element equivalent to an existing one leaves the set
unchanged (§4.5 set semantics); membership is what the claims consult, so
the new element is simply consed on otherwise. -/
def setInsert (l : List Anime) (a : Anime) : List Anime :=
  if l.any (fun b => equivMAL a b) then l else a :: l

/-- A collection built by inserting records one by one into an empty set. -/
def buildSet (items : List Anime) : List Anime :=
  items.foldl setInsert []

/-! ## Finalization events (claim C3) -/

/-- Whether processing token `t` in state `s` takes the finalize branch of
the end-element case: `t` is an end-element whose resolved tag matches the
active per-item wrapper (`ENTRY` when `entry_after_anime`, `ANIME`
otherwise).  Mirrors anime_serializer.cpp lines 181-186. -/
def finStep (s : DState) (t : Token) : Bool :=
  if t.name = "" then false
  else
    let s1 := resolveStep s t.name
    match t.nodeType with
    | .endElement =>
      (s1.entry_after_anime = true ∧ s1.field = .ENTRY) ∨
      (s1.entry_after_anime = false ∧ s1.field = .ANIME)
    | _ => false

/-- Whether any step of the run over `ts` starting from `s` finalizes a
record. -/
def anyFinalize (s : DState) : List Token → Bool
  | [] => false
  | t :: ts => finStep s t || anyFinalize (step s t) ts


/-- The tag of the active per-item wrapper: the element whose end-tag
finalizes a record (`ENTRY` once `entry_after_anime` is set, `ANIME`
before). -/
def finalizerTag (s : DState) : FIELDS :=
  if s.entry_after_anime then .ENTRY else .ANIME

/-! ## Concrete streams and records used by individual claims -/

/-- The shape-A token stream of claim C2:
`<anime><entry><id>5</id><title>Foo</title></entry>`
`<entry><id>7</id><title>Bar</title></entry></anime>`. -/
def c2Stream : List Token :=
  [startTok "anime",
   startTok "entry", startTok "id", textTok "5", endTok "id",
     startTok "title", textTok "Foo", endTok "title", endTok "entry",
   startTok "entry", startTok "id", textTok "7", endTok "id",
     startTok "title", textTok "Bar", endTok "title", endTok "entry",
   endTok "anime"]

/-- A truncated stream that populates the accumulator (the title setter
runs) but never closes the active per-item wrapper. -/
def c3TruncStream : List Token :=
  [startTok "anime", startTok "entry", startTok "title", textTok "Foo"]

/-- Prefix of the claim-C7 counterexample: a known data element (`title`)
is still the current tag when the unknown element opens. -/
def c7Prefix : List Token :=
  [startTok "anime", startTok "entry", startTok "title", startTok "xyz_unknown"]

/-- The record of the claim-C4 counterexample: a watched-episodes count of
12 and default values elsewhere. -/
def c4Record : Anime := { episodes := 12 }

/-! ## The simulation relation between a shape-A and a shape-B run (claim C1) -/

/-- Relates the current-field tags of a shape-A and a shape-B run at the
same position inside an item: equal (and not a wrapper tag), or the two
wrapper tags just after the per-item wrapper opened. -/
def FEquiv (f1 f2 : FIELDS) : Prop :=
  (f1 = f2 ∧ f1 ≠ .ENTRY ∧ f2 ≠ .ANIME) ∨ (f1 = .ENTRY ∧ f2 = .ANIME)

/-- Relates the previous-field tags of the two runs: equal, or both
without a registered setter (so text dispatch is a no-op in both). -/
def PEquiv (p1 p2 : FIELDS) : Prop :=
  p1 = p2 ∨ ((member_map p1).isNone = true ∧ (member_map p2).isNone = true)

/-- The simulation relation inside an item: equal outputs and
accumulators, the shape-A run committed to shape A
(`entry_after_anime`), the shape-B run not, both having seen `entry`,
and related field tags. -/
def Sim (sA sB : DState) : Prop :=
  sA.res = sB.res ∧ sA.anime = sB.anime ∧
  sA.entry_after_anime = true ∧ sA.seen_anime = true ∧ sA.seen_entry = true ∧
  sB.entry_after_anime = false ∧ sB.seen_entry = true ∧
  FEquiv sA.field sB.field ∧ PEquiv sA.prev_field sB.prev_field

/-- The simulation relation between items (just before a per-item wrapper
opens): outputs and accumulators equal, the shape-A run has seen `anime`
and has committed to shape A exactly when it has seen `entry`, the
shape-B run has seen `entry` and not committed, and the field tags are
either the two outer tags (before the first item) or both reset. -/
def Sim0 (sA sB : DState) : Prop :=
  sA.res = sB.res ∧ sA.anime = sB.anime ∧
  sA.entry_after_anime = sA.seen_entry ∧ sA.seen_anime = true ∧
  sB.entry_after_anime = false ∧ sB.seen_entry = true ∧
  ((sA.field = .ANIME ∧ sB.field = .ENTRY) ∨
    (sA.field = .FIELDNONE ∧ sB.field = .FIELDNONE)) ∧
  PEquiv sA.prev_field sB.prev_field

/-- The shape of the loop state throughout the round-trip run of claim
C4: empty output, both wrappers seen, shape A committed; only the
accumulator, the two field tags and the log vary. -/
@[reducible] def runSt (a : Anime) (f p : FIELDS) (L : List LogEvent) : DState :=
  { res := [], anime := a, field := f, prev_field := p,
    entry_after_anime := true, seen_anime := true, seen_entry := true, log := L }

/-! ## Helper lemmas -/

/-! ## Lemmas on the decimal renderer and parser -/

theorem natDigsAux_fuel (n : Nat) : ∀ f g, n ≤ f → n ≤ g →
    natDigsAux f n = natDigsAux g n := by
  induction n using Nat.strong_induction_on with
  | _ n ih =>
    intro f g hf hg
    match n, f, g, hf, hg with
    | 0, f, g, _, _ => cases f <;> cases g <;> rfl
    | m+1, f+1, g+1, hf, hg =>
      show natDigsAux f ((m+1)/10) ++ _ = natDigsAux g ((m+1)/10) ++ _
      have hd : (m+1)/10 < m+1 := Nat.div_lt_self (Nat.succ_pos m) (by omega)
      rw [ih ((m+1)/10) hd f g (by omega) (by omega)]

theorem natDigs_pos (n : Nat) (h : 0 < n) :
    natDigs n = natDigs (n / 10) ++ [Char.ofNat (48 + n % 10)] := by
  match n, h with
  | m+1, _ =>
    show natDigsAux m ((m+1)/10) ++ _ = natDigsAux ((m+1)/10) ((m+1)/10) ++ _
    have hd : (m+1)/10 < m+1 := Nat.div_lt_self (Nat.succ_pos m) (by omega)
    rw [natDigsAux_fuel ((m+1)/10) m ((m+1)/10) (by omega) (Nat.le_refl _)]

theorem parseNatChars_append (l : List Char) (c : Char) :
    parseNatChars (l ++ [c]) = parseNatChars l * 10 + (c.toNat - 48) := by
  simp [parseNatChars, List.foldl_append]

theorem toNat_ofNat_digit (m : Nat) (h : m < 10) :
    (Char.ofNat (48 + m)).toNat = 48 + m := by
  interval_cases m <;> decide

theorem parse_natDigs (n : Nat) : parseNatChars (natDigs n) = n := by
  induction n using Nat.strong_induction_on with
  | _ n ih =>
    match n with
    | 0 => rfl
    | m+1 =>
      rw [natDigs_pos _ (Nat.succ_pos m), parseNatChars_append,
        ih _ (Nat.div_lt_self (Nat.succ_pos m) (by omega)),
        toNat_ofNat_digit _ (Nat.mod_lt _ (by omega))]
      omega

theorem natDigs_digits (n : Nat) : ∀ c ∈ natDigs n, c.isDigit = true := by
  induction n using Nat.strong_induction_on with
  | _ n ih =>
    match n with
    | 0 => intro c hc; exact absurd hc (List.not_mem_nil c)
    | m+1 =>
      rw [natDigs_pos _ (Nat.succ_pos m)]
      intro c hc
      rcases List.mem_append.1 hc with h | h
      · exact ih _ (Nat.div_lt_self (Nat.succ_pos m) (by omega)) c h
      · have hr : (m+1) % 10 < 10 := Nat.mod_lt _ (by omega)
        simp only [List.mem_singleton] at h
        subst h
        set r := (m+1) % 10 with hr'
        interval_cases r <;> decide

theorem natDigs_ne_nil (n : Nat) (h : 0 < n) : natDigs n ≠ [] := by
  rw [natDigs_pos n h]; simp

theorem natRepr_ne_empty (n : Nat) : natRepr n ≠ "" := by
  unfold natRepr
  split
  · decide
  · rename_i h
    intro hcontra
    exact natDigs_ne_nil n (Nat.pos_of_ne_zero h) (congrArg String.toList hcontra)

theorem intRepr_ne_empty (i : Int) : intRepr i ≠ "" := by
  cases i with
  | ofNat n => exact natRepr_ne_empty n
  | negSucc n =>
    show "-" ++ natRepr (n+1) ≠ ""
    intro hcontra
    have hl := congrArg String.length hcontra
    rw [String.length_append] at hl
    have h1 : ("-").length = 1 := rfl
    have h0 : ("" : String).length = 0 := rfl
    omega

theorem natRepr_of_pos (n : Nat) (h : 0 < n) : natRepr n = String.mk (natDigs n) := by
  unfold natRepr
  rw [if_neg (Nat.pos_iff_ne_zero.1 h)]

theorem parse_intRepr (i : Int) : parseIntStr (intRepr i) = i := by
  cases i with
  | ofNat n =>
    by_cases h : n = 0
    · subst h; rfl
    · have hpos : 0 < n := Nat.pos_of_ne_zero h
      show parseIntStr (natRepr n) = Int.ofNat n
      rw [natRepr_of_pos n hpos]
      rcases hds : natDigs n with _ | ⟨c, rest⟩
      · exact absurd hds (natDigs_ne_nil n hpos)
      · have hc : c.isDigit = true :=
          natDigs_digits n c (by rw [hds]; exact List.mem_cons_self c rest)
        have hcne : c ≠ '-' := by
          intro hce; rw [hce] at hc; exact absurd hc (by decide)
        show (match (String.mk (c :: rest)).toList with
              | '-' :: r => -(parseNatChars r : Int)
              | l => (parseNatChars l : Int)) = Int.ofNat n
        have htl : (String.mk (c :: rest)).toList = c :: rest := rfl
        rw [htl]
        split
        · rename_i rest' heq
          injection heq with h1 h2
          exact absurd h1 hcne
        · rw [← hds, parse_natDigs]
          rfl
  | negSucc n =>
    show parseIntStr ("-" ++ natRepr (n+1)) = Int.negSucc n
    rw [natRepr_of_pos (n+1) (Nat.succ_pos n)]
    show (match ('-' :: natDigs (n+1) : List Char) with
          | '-' :: r => -(parseNatChars r : Int)
          | l => (parseNatChars l : Int)) = Int.negSucc n
    rw [show (match ('-' :: natDigs (n+1) : List Char) with
          | '-' :: r => -(parseNatChars r : Int)
          | l => (parseNatChars l : Int)) = -(parseNatChars (natDigs (n+1)) : Int) from rfl]
    rw [parse_natDigs]
    simp [Int.negSucc_eq]

/-! ## Length lemmas for zero-padded date rendering -/

theorem natDigs_length_rec (n : Nat) (h : 0 < n) :
    (natDigs n).length = (natDigs (n / 10)).length + 1 := by
  rw [natDigs_pos n h]; simp

theorem natDigs_length1 (n : Nat) (h0 : 0 < n) (h : n < 10) : (natDigs n).length = 1 := by
  rw [natDigs_length_rec n h0, Nat.div_eq_of_lt h]
  rfl

theorem natDigs_length2 (n : Nat) (h0 : 10 ≤ n) (h : n < 100) : (natDigs n).length = 2 := by
  rw [natDigs_length_rec n (by omega), natDigs_length1 (n / 10) (by omega) (by omega)]

theorem natDigs_length3 (n : Nat) (h0 : 100 ≤ n) (h : n < 1000) : (natDigs n).length = 3 := by
  rw [natDigs_length_rec n (by omega), natDigs_length2 (n / 10) (by omega) (by omega)]

theorem natDigs_length4 (n : Nat) (h0 : 1000 ≤ n) (h : n < 10000) : (natDigs n).length = 4 := by
  rw [natDigs_length_rec n (by omega), natDigs_length3 (n / 10) (by omega) (by omega)]

theorem string_mk_length (l : List Char) : (String.mk l).length = l.length := rfl

theorem natRepr_length1 (n : Nat) (h : n < 10) : (natRepr n).length = 1 := by
  by_cases h0 : n = 0
  · subst h0; rfl
  · rw [natRepr_of_pos n (Nat.pos_of_ne_zero h0), string_mk_length]
    exact natDigs_length1 n (Nat.pos_of_ne_zero h0) h

theorem natRepr_length2 (n : Nat) (h0 : 10 ≤ n) (h : n < 100) : (natRepr n).length = 2 := by
  rw [natRepr_of_pos n (by omega), string_mk_length]
  exact natDigs_length2 n h0 h

theorem natRepr_length3 (n : Nat) (h0 : 100 ≤ n) (h : n < 1000) : (natRepr n).length = 3 := by
  rw [natRepr_of_pos n (by omega), string_mk_length]
  exact natDigs_length3 n h0 h

theorem natRepr_length4 (n : Nat) (h0 : 1000 ≤ n) (h : n < 10000) : (natRepr n).length = 4 := by
  rw [natRepr_of_pos n (by omega), string_mk_length]
  exact natDigs_length4 n h0 h

theorem pad2_length (n : Nat) (h : n < 100) : (pad2 n).length = 2 := by
  unfold pad2
  split
  · rename_i h10
    rw [String.length_append, natRepr_length1 n h10]
    rfl
  · rename_i h10
    rw [String.length_append, natRepr_length2 n (by omega) h]
    rfl

theorem pad4_length (n : Nat) (h : n < 10000) : (pad4 n).length = 4 := by
  unfold pad4
  split
  · rename_i h10
    rw [String.length_append, natRepr_length1 n h10]
    rfl
  · split
    · rename_i h10 h100
      rw [String.length_append, natRepr_length2 n (by omega) h100]
      rfl
    · split
      · rename_i h10 h100 h1000
        rw [String.length_append, natRepr_length3 n (by omega) h1000]
        rfl
      · rename_i h10 h100 h1000
        rw [String.length_append, natRepr_length4 n (by omega) h]
        rfl

theorem formatMMDDYYYY_length (d : GDate) (hm : d.month < 100) (hd : d.day < 100)
    (hy : d.year < 10000) : (formatMMDDYYYY d).length = 8 := by
  unfold formatMMDDYYYY
  rw [String.length_append, String.length_append,
    pad2_length _ hm, pad2_length _ hd, pad4_length _ hy]

/-! ## Lemmas on the field map -/

theorem lookup_mem {α β : Type} [BEq α] [LawfulBEq α] (l : List (α × β)) (a : α) (b : β)
    (h : List.lookup a l = some b) : (a, b) ∈ l := by
  induction l with
  | nil => cases h
  | cons p t ih =>
    rw [List.lookup] at h
    split at h
    · rename_i heq
      cases h
      have h1 : p.1 = a := (eq_of_beq heq).symm
      have hp : p = (a, p.2) := by rw [← h1]
      rw [hp]
      exact List.mem_cons_self _ _
    · exact List.mem_cons_of_mem p (ih h)

/-- Only the element name `"entry"` resolves to the `ENTRY` tag. -/
theorem field_map_eq_entry (n : String) (h : field_map n = some .ENTRY) : n = "entry" := by
  have hm := lookup_mem field_pairs n .ENTRY h
  simp [field_pairs] at hm
  exact hm

/-- Only the element name `"anime"` resolves to the `ANIME` tag. -/
theorem field_map_eq_anime (n : String) (h : field_map n = some .ANIME) : n = "anime" := by
  have hm := lookup_mem field_pairs n .ANIME h
  simp [field_pairs] at hm
  exact hm

theorem resolveStep_res (s : DState) (n : String) : (resolveStep s n).res = s.res := by
  unfold resolveStep; split <;> rfl

theorem elementStep_res (s : DState) : (elementStep s).res = s.res := rfl

theorem textStep_res (s : DState) (n v : String) : (textStep s n v).res = s.res := by
  unfold textStep
  by_cases hf : s.field = FIELDS.FIELDTEXT <;>
    simp only [hf, if_true, if_false, reduceIte] <;>
    split <;> first | rfl | (split <;> rfl)

theorem resolveStep_known (s : DState) (n : String) (f : FIELDS) (h : field_map n = some f) :
    resolveStep s n = { s with prev_field := s.field, field := f } := by
  unfold resolveStep; rw [h]

theorem resolveStep_unknown (s : DState) (n : String) (h : field_map n = none) :
    resolveStep s n = { s with log := s.log ++ [.unexpectedField n] } := by
  unfold resolveStep; rw [h]

theorem resolveStep_flags (s : DState) (n : String) :
    (resolveStep s n).entry_after_anime = s.entry_after_anime ∧
    (resolveStep s n).seen_anime = s.seen_anime ∧
    (resolveStep s n).seen_entry = s.seen_entry ∧
    (resolveStep s n).anime = s.anime := by
  unfold resolveStep; split <;> exact ⟨rfl, rfl, rfl, rfl⟩

theorem endElementStep_of_fin (s : DState)
    (h : (s.entry_after_anime = true ∧ s.field = .ENTRY) ∨
         (s.entry_after_anime = false ∧ s.field = .ANIME)) :
    endElementStep s = { s with res := s.res ++ [s.anime], anime := {}, field := .FIELDNONE } := by
  unfold endElementStep; rw [if_pos h]

theorem endElementStep_of_not_fin (s : DState)
    (h : ¬((s.entry_after_anime = true ∧ s.field = .ENTRY) ∨
           (s.entry_after_anime = false ∧ s.field = .ANIME))) :
    endElementStep s = { s with field := .FIELDNONE } := by
  unfold endElementStep; rw [if_neg h]

theorem endElementStep_flags (s : DState) :
    (endElementStep s).entry_after_anime = s.entry_after_anime ∧
    (endElementStep s).seen_anime = s.seen_anime ∧
    (endElementStep s).seen_entry = s.seen_entry ∧
    (endElementStep s).prev_field = s.prev_field ∧
    (endElementStep s).field = .FIELDNONE := by
  unfold endElementStep; split <;> exact ⟨rfl, rfl, rfl, rfl, rfl⟩

theorem textStep_flags (s : DState) (n v : String) :
    (textStep s n v).entry_after_anime = s.entry_after_anime ∧
    (textStep s n v).seen_anime = s.seen_anime ∧
    (textStep s n v).seen_entry = s.seen_entry ∧
    (textStep s n v).field = s.field ∧
    (textStep s n v).prev_field = s.prev_field ∧
    (textStep s n v).res = s.res := by
  unfold textStep
  by_cases hf : s.field = FIELDS.FIELDTEXT
  all_goals
    first
      | (simp only [if_pos hf]
         split <;> first
           | exact ⟨rfl, rfl, rfl, rfl, rfl, rfl⟩
           | (split <;> exact ⟨rfl, rfl, rfl, rfl, rfl, rfl⟩))
      | (simp only [if_neg hf]
         split <;> first
           | exact ⟨rfl, rfl, rfl, rfl, rfl, rfl⟩
           | (split <;> exact ⟨rfl, rfl, rfl, rfl, rfl, rfl⟩))

theorem textStep_anime_of_none (s : DState) (n v : String)
    (h : member_map s.prev_field = none) : (textStep s n v).anime = s.anime := by
  unfold textStep
  by_cases hf : s.field = FIELDS.FIELDTEXT
  all_goals
    first
      | (simp only [if_pos hf]
         split <;> first | rfl | (rw [h]))
      | (simp only [if_neg hf]
         split <;> first | rfl | (rw [h]))

theorem textStep_anime_of_some (s : DState) (n v : String) (g : Anime → String → Anime)
    (h : member_map s.prev_field = some g) (hv : ¬v = "") :
    (textStep s n v).anime = g s.anime v := by
  unfold textStep
  by_cases hf : s.field = FIELDS.FIELDTEXT
  all_goals
    first
      | (simp only [if_pos hf, if_neg hv]
         rw [h])
      | (simp only [if_neg hf, if_neg hv]
         rw [h])

theorem step_element (s : DState) (nm v : String) (h : ¬nm = "") :
    step s ⟨.element, nm, v⟩ = elementStep (resolveStep s nm) := by
  unfold step; rw [if_neg h]

theorem step_endElement (s : DState) (nm v : String) (h : ¬nm = "") :
    step s ⟨.endElement, nm, v⟩ = endElementStep (resolveStep s nm) := by
  unfold step; rw [if_neg h]

theorem step_text (s : DState) (nm v : String) (h : ¬nm = "") :
    step s ⟨.text, nm, v⟩ = textStep (resolveStep s nm) nm v := by
  unfold step; rw [if_neg h]

theorem step_ws (s : DState) (nm v : String) (h : ¬nm = "") :
    step s ⟨.sigWhitespace, nm, v⟩ = resolveStep s nm := by
  unfold step; rw [if_neg h]

theorem step_other (s : DState) (nm v : String) (h : ¬nm = "") :
    step s ⟨.other, nm, v⟩ =
      { resolveStep s nm with log := (resolveStep s nm).log ++ [.unexpectedNode nm v] } := by
  unfold step; rw [if_neg h]

/-- A non-finalizing step leaves the output list untouched. -/
theorem step_res_of_not_fin (s : DState) (t : Token) (h : finStep s t = false) :
    (step s t).res = s.res := by
  obtain ⟨nt, nm, v⟩ := t
  unfold finStep at h
  unfold step
  by_cases hname : nm = ""
  · rw [if_pos hname]
  · rw [if_neg hname] at h ⊢
    cases nt with
    | element =>
      show (elementStep (resolveStep s nm)).res = s.res
      rw [elementStep_res, resolveStep_res]
    | endElement =>
      show (endElementStep (resolveStep s nm)).res = s.res
      unfold endElementStep
      rw [if_neg (of_decide_eq_false h)]
      exact resolveStep_res s nm
    | text =>
      show (textStep (resolveStep s nm) nm v).res = s.res
      rw [textStep_res, resolveStep_res]
    | sigWhitespace => exact resolveStep_res s nm
    | other =>
      show ({ resolveStep s nm with
              log := (resolveStep s nm).log ++ [.unexpectedNode nm v] } : DState).res = s.res
      exact resolveStep_res s nm

/-- Folding a run with no finalization event never grows the output. -/
theorem foldl_res_of_no_fin (ts : List Token) :
    ∀ s : DState, anyFinalize s ts = false → (ts.foldl step s).res = s.res := by
  induction ts with
  | nil => intro s h; rfl
  | cons t ts ih =>
    intro s h
    unfold anyFinalize at h
    rw [Bool.or_eq_false_iff] at h
    rw [List.foldl_cons, ih (step s t) h.2, step_res_of_not_fin s t h.1]

/-- Each of the three shape-tracking flags, once true, stays true across
one loop step; hence the finalizing wrapper tag can only move from
`ANIME` to `ENTRY`. -/
theorem step_flags_mono (s : DState) (t : Token) :
    (s.seen_anime = true → (step s t).seen_anime = true) ∧
    (s.seen_entry = true → (step s t).seen_entry = true) ∧
    (s.entry_after_anime = true → (step s t).entry_after_anime = true) := by
  obtain ⟨nt, nm, v⟩ := t
  by_cases hname : nm = ""
  · subst hname
    refine ⟨?_, ?_, ?_⟩ <;> intro h <;> exact h
  · cases nt with
    | element =>
      rw [step_element s nm v hname]
      obtain ⟨he, ha, hse, _⟩ := resolveStep_flags s nm
      unfold elementStep
      refine ⟨?_, ?_, ?_⟩ <;> intro h
      · show (if (resolveStep s nm).field = .ANIME then true
              else (resolveStep s nm).seen_anime) = true
        rw [ha]
        split <;> simp [h]
      · show (if (resolveStep s nm).field = .ENTRY then true
              else (resolveStep s nm).seen_entry) = true
        rw [hse]
        split <;> simp [h]
      · show (if (resolveStep s nm).field = .ENTRY ∧ (resolveStep s nm).seen_anime = true ∧
                  (resolveStep s nm).seen_entry = false then true
              else (resolveStep s nm).entry_after_anime) = true
        rw [he]
        split <;> simp [h]
    | endElement =>
      rw [step_endElement s nm v hname]
      obtain ⟨he, ha, hse, _, _⟩ := endElementStep_flags (resolveStep s nm)
      obtain ⟨he2, ha2, hse2, _⟩ := resolveStep_flags s nm
      rw [he, ha, hse, he2, ha2, hse2]
      exact ⟨fun h => h, fun h => h, fun h => h⟩
    | text =>
      rw [step_text s nm v hname]
      obtain ⟨he, ha, hse, _, _, _⟩ := textStep_flags (resolveStep s nm) nm v
      obtain ⟨he2, ha2, hse2, _⟩ := resolveStep_flags s nm
      rw [he, ha, hse, he2, ha2, hse2]
      exact ⟨fun h => h, fun h => h, fun h => h⟩
    | sigWhitespace =>
      rw [step_ws s nm v hname]
      obtain ⟨he2, ha2, hse2, _⟩ := resolveStep_flags s nm
      rw [he2, ha2, hse2]
      exact ⟨fun h => h, fun h => h, fun h => h⟩
    | other =>
      rw [step_other s nm v hname]
      obtain ⟨he2, ha2, hse2, _⟩ := resolveStep_flags s nm
      refine ⟨?_, ?_, ?_⟩ <;> intro h
      · show (resolveStep s nm).seen_anime = true
        rw [ha2]; exact h
      · show (resolveStep s nm).seen_entry = true
        rw [hse2]; exact h
      · show (resolveStep s nm).entry_after_anime = true
        rw [he2]; exact h

theorem foldl_flags_mono (ts : List Token) : ∀ s : DState,
    (s.seen_anime = true → (ts.foldl step s).seen_anime = true) ∧
    (s.seen_entry = true → (ts.foldl step s).seen_entry = true) ∧
    (s.entry_after_anime = true → (ts.foldl step s).entry_after_anime = true) := by
  induction ts with
  | nil => intro s; exact ⟨fun h => h, fun h => h, fun h => h⟩
  | cons t ts ih =>
    intro s
    obtain ⟨h1, h2, h3⟩ := step_flags_mono s t
    obtain ⟨g1, g2, g3⟩ := ih (step s t)
    exact ⟨fun h => g1 (h1 h), fun h => g2 (h2 h), fun h => g3 (h3 h)⟩

/-! ## Claim theorems -/

/-- C2: deserializing the shape-A token stream
`<anime><entry><id>5</id><title>Foo</title></entry>`
`<entry><id>7</id><title>Bar</title></entry></anime>` yields exactly two
records, the first with catalog id 5 and title "Foo", the second with
catalog id 7 and title "Bar", in that order. -/
theorem claim_C2 :
    (deserialize c2Stream).length = 2 ∧
    (deserialize c2Stream).map (fun a => (a.series_itemdb_id, a.series_title)) =
      [(5, "Foo"), (7, "Bar")] :=
  ⟨rfl, rfl⟩

/-- C3: a token stream on which no step ever matches the end-element of
the active per-item wrapper yields zero finalized records — records are
appended only at a matched end-element, never at end of input (the fold
simply stops). -/
theorem claim_C3 (ts : List Token) (h : anyFinalize {} ts = false) :
    deserialize ts = [] :=
  foldl_res_of_no_fin ts {} h

/-- Witness for C3: a truncated stream whose title setter has populated
the accumulator still deserializes to zero records. -/
theorem claim_C3_witness :
    anyFinalize {} c3TruncStream = false ∧
    deserialize c3TruncStream = [] ∧
    (c3TruncStream.foldl step {}).anime.series_title = "Foo" :=
  ⟨rfl, claim_C3 c3TruncStream rfl, rfl⟩

/-- C10: during any single run the three shape-tracking flags are
monotone — once `seen_anime`, `seen_entry` or `entry_after_anime` is true
it stays true for the rest of the stream — so the active per-item wrapper
tag changes at most once, from the outer `ANIME` to the per-item `ENTRY`,
and never back. -/
theorem claim_C10 (ts : List Token) (s : DState) :
    (s.seen_anime = true → (ts.foldl step s).seen_anime = true) ∧
    (s.seen_entry = true → (ts.foldl step s).seen_entry = true) ∧
    (s.entry_after_anime = true → (ts.foldl step s).entry_after_anime = true) ∧
    (finalizerTag s = .ENTRY → finalizerTag (ts.foldl step s) = .ENTRY) := by
  obtain ⟨h1, h2, h3⟩ := foldl_flags_mono ts s
  refine ⟨h1, h2, h3, ?_⟩
  intro hf
  unfold finalizerTag at hf ⊢
  by_cases he : s.entry_after_anime = true
  · rw [h3 he]
    rfl
  · rw [if_neg he] at hf
    exact absurd hf (by decide)

/-- Witness for C10: from a state with all three flags set, running the
C2 stream keeps them set and the finalizer stays `ENTRY`. -/
theorem claim_C10_witness :
    (c2Stream.foldl step
      { entry_after_anime := true, seen_anime := true, seen_entry := true }).seen_anime = true ∧
    (c2Stream.foldl step
      { entry_after_anime := true, seen_anime := true, seen_entry := true }).seen_entry = true ∧
    (c2Stream.foldl step
      { entry_after_anime := true, seen_anime := true, seen_entry := true }).entry_after_anime = true ∧
    finalizerTag (c2Stream.foldl step
      { entry_after_anime := true, seen_anime := true, seen_entry := true }) = .ENTRY := by
  obtain ⟨h1, h2, h3, h4⟩ := claim_C10 c2Stream
    { entry_after_anime := true, seen_anime := true, seen_entry := true }
  exact ⟨h1 rfl, h2 rfl, h3 rfl, h4 rfl⟩

theorem lexLt_irrefl (a : List Char) : lexLt a a = false := by
  induction a with
  | nil => rfl
  | cons x xs ih =>
    unfold lexLt
    rw [if_neg (Nat.lt_irrefl _), if_neg (Nat.lt_irrefl _)]
    exact ih

theorem lexLt_asymm (a : List Char) : ∀ b, lexLt a b = true → lexLt b a = false := by
  induction a with
  | nil =>
    intro b hb
    cases b with
    | nil => cases hb
    | cons y ys => rfl
  | cons x xs ih =>
    intro b hb
    cases b with
    | nil => cases hb
    | cons y ys =>
      unfold lexLt at hb ⊢
      by_cases hxy : x.toNat < y.toNat
      · rw [if_neg (by omega), if_pos hxy]
      · rw [if_neg hxy] at hb
        by_cases hyx : y.toNat < x.toNat
        · rw [if_pos hyx] at hb
          cases hb
        · rw [if_neg hyx] at hb
          rw [if_neg hyx, if_neg hxy]
          exact ih ys hb

theorem strLt_irrefl (a : String) : strLt a a = false := lexLt_irrefl a.toList

theorem strLt_asymm (a b : String) (h : strLt a b = true) : strLt b a = false :=
  lexLt_asymm a.toList b.toList h

/-- C5: the entry whose start-date year-month prefix (first seven
characters) is greater orders first; with equal prefixes the
lexicographically smaller title orders first. -/
theorem claim_C5 (l r : Anime) :
    (strLt (strTake r.series_date_begin 7) (strTake l.series_date_begin 7) = true →
      MALItemComparator l r = true) ∧
    (strTake l.series_date_begin 7 = strTake r.series_date_begin 7 →
      (MALItemComparator l r = true ↔ strLt l.series_title r.series_title = true)) := by
  unfold MALItemComparator strCompare
  constructor
  · intro h
    rw [if_neg (by rw [strLt_asymm _ _ h]; exact Bool.false_ne_true), if_pos h]
  · intro h
    rw [h, if_neg (by rw [strLt_irrefl]; exact Bool.false_ne_true),
      if_neg (by rw [strLt_irrefl]; exact Bool.false_ne_true)]
    by_cases ht : strLt l.series_title r.series_title = true
    · rw [if_pos ht]
      simp [ht]
    · rw [if_neg ht]
      rcases hb : strLt r.series_title l.series_title with _ | _ <;>
        simp [hb, ht]

/-- Witness for C5: a 2020-04 entry precedes a 2019-10 entry regardless of
titles, and with equal year-month prefixes the smaller title precedes. -/
theorem claim_C5_witness :
    MALItemComparator { series_date_begin := "2020-04-01", series_title := "Zzz" }
                      { series_date_begin := "2019-10-05", series_title := "Aaa" } = true ∧
    MALItemComparator { series_date_begin := "2020-04-01", series_title := "Aaa" }
                      { series_date_begin := "2020-04-09", series_title := "Bbb" } = true := by
  constructor
  · exact (claim_C5 _ _).1 (by decide)
  · exact ((claim_C5 _ _).2 (by decide)).mpr (by decide)

theorem equivMAL_symm (a b : Anime) : equivMAL a b = equivMAL b a := by
  unfold equivMAL
  rw [Bool.and_comm]

/-- Inserting into a collection with no equivalent pair of distinct
entries preserves that invariant (std::set rejects an element equivalent
to an existing one). -/
theorem setInsert_inv (l : List Anime) (x : Anime)
    (hl : ∀ a b : Anime, a ∈ l → b ∈ l → equivMAL a b = true → a = b) :
    ∀ a b : Anime, a ∈ setInsert l x → b ∈ setInsert l x → equivMAL a b = true → a = b := by
  unfold setInsert
  split
  · exact hl
  · rename_i hany
    have hnone : ∀ y ∈ l, equivMAL x y = false := by
      intro y hy
      cases hxy : equivMAL x y with
      | false => rfl
      | true => exact absurd (List.any_eq_true.2 ⟨y, hy, hxy⟩) hany
    intro a b ha hb he
    rcases List.mem_cons.1 ha with rfl | ha2
    · rcases List.mem_cons.1 hb with rfl | hb2
      · rfl
      · rw [hnone b hb2] at he
        cases he
    · rcases List.mem_cons.1 hb with rfl | hb2
      · rw [equivMAL_symm, hnone a ha2] at he
        cases he
      · exact hl a b ha2 hb2 he

/-- The invariant holds of every collection built by repeated insertion. -/
theorem buildSet_inv (items : List Anime) : ∀ l : List Anime,
    (∀ a b : Anime, a ∈ l → b ∈ l → equivMAL a b = true → a = b) →
    ∀ a b : Anime, a ∈ items.foldl setInsert l → b ∈ items.foldl setInsert l →
      equivMAL a b = true → a = b := by
  induction items with
  | nil => intro l hl; exact hl
  | cons x items ih =>
    intro l hl
    exact ih (setInsert l x) (setInsert_inv l x hl)

/-- C6: in a collection built by set insertion, two entries that compare
as equal under the collection order (same year-month prefix of the start
date and same title) are the same entry, hence share the catalog id. -/
theorem claim_C6 (items : List Anime) (a b : Anime)
    (ha : a ∈ buildSet items) (hb : b ∈ buildSet items)
    (he : equivMAL a b = true) :
    a = b ∧ a.series_itemdb_id = b.series_itemdb_id := by
  have h : a = b := by
    refine buildSet_inv items [] ?_ a b ha hb he
    intro a b ha2
    cases ha2
  exact ⟨h, by rw [h]⟩

/-- Witness for C6: a singleton collection, with the entry compared
against itself. -/
theorem claim_C6_witness :
    ({ series_itemdb_id := 7, series_title := "Foo" } : Anime) =
      { series_itemdb_id := 7, series_title := "Foo" } ∧
    ({ series_itemdb_id := 7, series_title := "Foo" } : Anime).series_itemdb_id =
      ({ series_itemdb_id := 7, series_title := "Foo" } : Anime).series_itemdb_id :=
  claim_C6 [{ series_itemdb_id := 7, series_title := "Foo" }] _ _
    (by decide) (by decide) (by decide)

theorem textStep_id (s : DState) (n v : String) (hf : s.field = .FIELDTEXT)
    (hm : member_map s.prev_field = none) (hv : ¬v = "") : textStep s n v = s := by
  unfold textStep
  simp only [if_pos hf, if_neg hv]
  rw [hm]

/-- Counterexample to C7: in the stream
`<anime><entry><title><xyz_unknown>Evil...`, the text under the unknown
element `xyz_unknown` is dispatched through the still-armed `title`
setter, altering the accumulator. -/
theorem claim_C7_cex :
    field_map "xyz_unknown" = none ∧
    textTok "Evil" = ⟨.text, "#text", "Evil"⟩ ∧
    (step (c7Prefix.foldl step {}) (textTok "Evil")).anime ≠ (c7Prefix.foldl step {}).anime := by
  refine ⟨rfl, rfl, ?_⟩
  decide

/-- C7 (amended): when the current resolved tag has no registered setter
— in particular in the sibling position directly after any end-element,
where the tag has been reset — a start-element with an unknown name
followed by a non-empty text token logs an unknown-field warning, does
not abort, leaves the finalized records unchanged and leaves the
accumulator unchanged. -/
theorem claim_C7_amended (s : DState) (name v : String)
    (hname : ¬name = "") (hn : field_map name = none)
    (hm : member_map s.field = none) (hv : ¬v = "") :
    (step (step s (startTok name)) (textTok v)).anime = s.anime ∧
    (step (step s (startTok name)) (textTok v)).res = s.res ∧
    LogEvent.unexpectedField name ∈ (step (step s (startTok name)) (textTok v)).log := by
  have e1 : step s (startTok name)
      = elementStep { s with log := s.log ++ [.unexpectedField name] } := by
    show step s ⟨.element, name, ""⟩ = _
    rw [step_element s name "" hname, resolveStep_unknown s name hn]
  have e2 : step (step s (startTok name)) (textTok v)
      = textStep (resolveStep (step s (startTok name)) "#text") "#text" v := by
    show step _ ⟨.text, "#text", v⟩ = _
    exact step_text _ "#text" v (by decide)
  rw [e2, resolveStep_known _ "#text" .FIELDTEXT rfl, e1]
  rw [textStep_id _ "#text" v rfl hm hv]
  refine ⟨rfl, rfl, ?_⟩
  show LogEvent.unexpectedField name ∈ s.log ++ [LogEvent.unexpectedField name]
  exact List.mem_append_right _ (List.mem_singleton.2 rfl)

/-- Witness for the amended C7: from the initial state, an unknown
element with non-empty text leaves the accumulator and output untouched
and logs the warning. -/
theorem claim_C7_witness :
    (step (step {} (startTok "xyz_unknown")) (textTok "boo")).anime = ({} : DState).anime ∧
    (step (step {} (startTok "xyz_unknown")) (textTok "boo")).res = ({} : DState).res ∧
    LogEvent.unexpectedField "xyz_unknown" ∈
      (step (step {} (startTok "xyz_unknown")) (textTok "boo")).log :=
  claim_C7_amended {} "xyz_unknown" "boo" (by decide) rfl rfl (by decide)

theorem empty_append_str (s : String) : "" ++ s = s := by
  apply String.ext
  rw [String.data_append]
  rfl

theorem sjoin_append (l1 l2 : List String) : sjoin (l1 ++ l2) = sjoin l1 ++ sjoin l2 := by
  induction l1 with
  | nil =>
    rw [List.nil_append]
    exact (empty_append_str _).symm
  | cons x l ih =>
    rw [List.cons_append]
    show x ++ sjoin (l ++ l2) = (x ++ sjoin l) ++ sjoin l2
    rw [ih, String.append_assoc]

theorem glibDateParse_bounds (s : String) (d : GDate) (h : glibDateParse s = some d) :
    1 ≤ d.month ∧ d.month ≤ 12 ∧ 1 ≤ d.day ∧ d.day ≤ 31 ∧ d.year ≤ 9999 := by
  unfold glibDateParse at h
  split at h
  · split at h
    · split at h
      · rename_i hbounds
        injection h with h2
        subst h2
        exact hbounds
      · cases h
    · cases h
  · cases h

theorem renderDate_valid (s : String) (d : GDate) (h : glibDateParse s = some d) :
    renderDate s = pad2 d.month ++ pad2 d.day ++ pad4 d.year ∧ (renderDate s).length = 8 := by
  have hb := glibDateParse_bounds s d h
  unfold renderDate
  rw [h]
  exact ⟨rfl, formatMMDDYYYY_length d (by omega) (by omega) (by omega)⟩

theorem renderDate_invalid (s : String) (h : glibDateParse s = none) : renderDate s = "" := by
  unfold renderDate
  rw [h]

/-- C8: `serialize` renders each of the two date elements with body
`renderDate` of the stored string: an eight-character zero-padded
`MMDDYYYY` number when the string parses as a valid date, and an empty
body when it does not; `serialize` is total, so no error is signalled
either way. -/
theorem claim_C8 (a : Anime) :
    (∃ pre post, serialize a = pre ++ elemStr ("date_start", renderDate a.date_start) ++ post) ∧
    (∃ pre post, serialize a = pre ++ elemStr ("date_finish", renderDate a.date_finish) ++ post) ∧
    (∀ s d, glibDateParse s = some d →
      renderDate s = pad2 d.month ++ pad2 d.day ++ pad4 d.year ∧ (renderDate s).length = 8) ∧
    (∀ s, glibDateParse s = none → renderDate s = "") := by
  refine ⟨?_, ?_, fun s d h => renderDate_valid s d h, fun s h => renderDate_invalid s h⟩
  · refine ⟨"<?xml version=\"1.0\" encoding=\"UTF-8\"?><entry>" ++
      sjoin (List.map elemStr
        [("episode", intRepr a.episodes),
         ("status", intRepr a.status),
         ("score", intRepr a.score),
         ("downloaded_episodes", intRepr a.downloaded_items),
         ("storage_type", ""),
         ("storage_value", ""),
         ("times_rewatched", ""),
         ("rewatch_value", "")]),
      sjoin (List.map elemStr
        [("date_finish", renderDate a.date_finish),
         ("priority", ""),
         ("enable_discussion", ""),
         ("enable_rewatching", if a.enable_reconsuming then "1" else "0"),
         ("comments", ""),
         ("fansub_group", ""),
         ("tags", String.intercalate "; " a.tags),
         ("rewatch_episode", intRepr a.rewatch_episode)]) ++ "</entry>", ?_⟩
    show "<?xml version=\"1.0\" encoding=\"UTF-8\"?><entry>" ++
        sjoin (List.map elemStr
          ([("episode", intRepr a.episodes),
            ("status", intRepr a.status),
            ("score", intRepr a.score),
            ("downloaded_episodes", intRepr a.downloaded_items),
            ("storage_type", ""),
            ("storage_value", ""),
            ("times_rewatched", ""),
            ("rewatch_value", "")] ++
           ("date_start", renderDate a.date_start) ::
           [("date_finish", renderDate a.date_finish),
            ("priority", ""),
            ("enable_discussion", ""),
            ("enable_rewatching", if a.enable_reconsuming then "1" else "0"),
            ("comments", ""),
            ("fansub_group", ""),
            ("tags", String.intercalate "; " a.tags),
            ("rewatch_episode", intRepr a.rewatch_episode)])) ++ "</entry>" = _
    rw [List.map_append, sjoin_append, List.map_cons]
    show _ ++ (_ ++ (elemStr ("date_start", renderDate a.date_start) ++ _)) ++ _ = _
    simp only [String.append_assoc]
  · refine ⟨"<?xml version=\"1.0\" encoding=\"UTF-8\"?><entry>" ++
      sjoin (List.map elemStr
        [("episode", intRepr a.episodes),
         ("status", intRepr a.status),
         ("score", intRepr a.score),
         ("downloaded_episodes", intRepr a.downloaded_items),
         ("storage_type", ""),
         ("storage_value", ""),
         ("times_rewatched", ""),
         ("rewatch_value", ""),
         ("date_start", renderDate a.date_start)]),
      sjoin (List.map elemStr
        [("priority", ""),
         ("enable_discussion", ""),
         ("enable_rewatching", if a.enable_reconsuming then "1" else "0"),
         ("comments", ""),
         ("fansub_group", ""),
         ("tags", String.intercalate "; " a.tags),
         ("rewatch_episode", intRepr a.rewatch_episode)]) ++ "</entry>", ?_⟩
    show "<?xml version=\"1.0\" encoding=\"UTF-8\"?><entry>" ++
        sjoin (List.map elemStr
          ([("episode", intRepr a.episodes),
            ("status", intRepr a.status),
            ("score", intRepr a.score),
            ("downloaded_episodes", intRepr a.downloaded_items),
            ("storage_type", ""),
            ("storage_value", ""),
            ("times_rewatched", ""),
            ("rewatch_value", ""),
            ("date_start", renderDate a.date_start)] ++
           ("date_finish", renderDate a.date_finish) ::
           [("priority", ""),
            ("enable_discussion", ""),
            ("enable_rewatching", if a.enable_reconsuming then "1" else "0"),
            ("comments", ""),
            ("fansub_group", ""),
            ("tags", String.intercalate "; " a.tags),
            ("rewatch_episode", intRepr a.rewatch_episode)])) ++ "</entry>" = _
    rw [List.map_append, sjoin_append, List.map_cons]
    show _ ++ (_ ++ (elemStr ("date_finish", renderDate a.date_finish) ++ _)) ++ _ = _
    simp only [String.append_assoc]

/-- Witness for C8: a valid date renders as the eight digits `04012020`,
an invalid one as the empty body. -/
theorem claim_C8_witness :
    renderDate "2020-04-01" = pad2 4 ++ pad2 1 ++ pad4 2020 ∧
    (renderDate "2020-04-01").length = 8 ∧
    renderDate "not-a-date" = "" := by
  have h := claim_C8 {}
  have h1 := h.2.2.1 "2020-04-01" ⟨4, 1, 2020⟩ rfl
  exact ⟨h1.1, h1.2, h.2.2.2 "not-a-date" rfl⟩

/-! ## Shape independence (claim C1) -/

theorem textStep_anime_of_empty (s : DState) (n v : String) (hv : v = "") :
    (textStep s n v).anime = s.anime := by
  unfold textStep
  by_cases hf : s.field = FIELDS.FIELDTEXT
  · rw [if_pos hf, if_pos hv]
  · rw [if_neg hf, if_pos hv]

theorem FEquiv_to_PEquiv (f1 f2 : FIELDS) (h : FEquiv f1 f2) : PEquiv f1 f2 := by
  rcases h with ⟨rfl, _, _⟩ | ⟨rfl, rfl⟩
  · exact Or.inl rfl
  · exact Or.inr ⟨rfl, rfl⟩

theorem FEquiv_none : FEquiv .FIELDNONE .FIELDNONE :=
  Or.inl ⟨rfl, by decide, by decide⟩

theorem FEquiv_same (f : FIELDS) (h1 : f ≠ .ENTRY) (h2 : f ≠ .ANIME) : FEquiv f f :=
  Or.inl ⟨rfl, h1, h2⟩

/-- Anything the two text-dispatch states do to the accumulators is the
same when the previous tags are `PEquiv`-related and the accumulators are
equal. -/
theorem textStep_anime_peq (s1 s2 : DState) (n1 n2 v : String)
    (hp : PEquiv s1.prev_field s2.prev_field) (ha : s1.anime = s2.anime) :
    (textStep s1 n1 v).anime = (textStep s2 n2 v).anime := by
  by_cases hv : v = ""
  · rw [textStep_anime_of_empty s1 n1 v hv, textStep_anime_of_empty s2 n2 v hv, ha]
  · rcases hp with heq | ⟨h1, h2⟩
    · rcases hmm : member_map s1.prev_field with _ | g
      · rw [textStep_anime_of_none s1 n1 v hmm,
          textStep_anime_of_none s2 n2 v (by rw [← heq]; exact hmm), ha]
      · rw [textStep_anime_of_some s1 n1 v g hmm hv,
          textStep_anime_of_some s2 n2 v g (by rw [← heq]; exact hmm) hv, ha]
    · rw [textStep_anime_of_none s1 n1 v (Option.isNone_iff_eq_none.1 h1),
        textStep_anime_of_none s2 n2 v (Option.isNone_iff_eq_none.1 h2), ha]

/-- One token that is neither wrapper element preserves the in-item
simulation relation. -/
theorem sim_step (sA sB : DState) (t : Token)
    (hA : t.name ≠ "anime") (hE : t.name ≠ "entry") (h : Sim sA sB) :
    Sim (step sA t) (step sB t) := by
  obtain ⟨nt, nm, v⟩ := t
  obtain ⟨hres, hanime, hAe, hAsa, hAse, hBe, hBse, hF, hP⟩ := h
  by_cases hname : nm = ""
  · subst hname
    have e : ∀ s : DState, step s ⟨nt, "", v⟩ = s := by
      intro s
      unfold step
      rw [if_pos rfl]
    rw [e sA, e sB]
    exact ⟨hres, hanime, hAe, hAsa, hAse, hBe, hBse, hF, hP⟩
  · rcases hfm : field_map nm with _ | f
    · -- unknown name: the lookup only logs
      have eA : resolveStep sA nm = { sA with log := sA.log ++ [.unexpectedField nm] } :=
        resolveStep_unknown sA nm hfm
      have eB : resolveStep sB nm = { sB with log := sB.log ++ [.unexpectedField nm] } :=
        resolveStep_unknown sB nm hfm
      cases nt with
      | element =>
        rw [step_element sA nm v hname, step_element sB nm v hname, eA, eB]
        unfold elementStep
        refine ⟨hres, hanime, ?_, ?_, ?_, ?_, ?_, hF, hP⟩
        · show (if sA.field = .ENTRY ∧ sA.seen_anime = true ∧ sA.seen_entry = false then true
                else sA.entry_after_anime) = true
          split
          · rfl
          · exact hAe
        · show (if sA.field = .ANIME then true else sA.seen_anime) = true
          split
          · rfl
          · exact hAsa
        · show (if sA.field = .ENTRY then true else sA.seen_entry) = true
          split
          · rfl
          · exact hAse
        · show (if sB.field = .ENTRY ∧ sB.seen_anime = true ∧ sB.seen_entry = false then true
                else sB.entry_after_anime) = false
          rw [if_neg (fun hc => by rw [hBse] at hc; exact absurd hc.2.2 (by decide))]
          exact hBe
        · show (if sB.field = .ENTRY then true else sB.seen_entry) = true
          split
          · rfl
          · exact hBse
      | endElement =>
        rw [step_endElement sA nm v hname, step_endElement sB nm v hname, eA, eB]
        rcases hF with ⟨heq, hne1, hne2⟩ | ⟨h1, h2⟩
        · have cA : ¬((sA.entry_after_anime = true ∧ sA.field = FIELDS.ENTRY) ∨
              (sA.entry_after_anime = false ∧ sA.field = FIELDS.ANIME)) := by
            rintro (⟨_, hc⟩ | ⟨hc, _⟩)
            · exact hne1 hc
            · rw [hAe] at hc
              exact absurd hc (by decide)
          have cB : ¬((sB.entry_after_anime = true ∧ sB.field = FIELDS.ENTRY) ∨
              (sB.entry_after_anime = false ∧ sB.field = FIELDS.ANIME)) := by
            rintro (⟨hc, _⟩ | ⟨_, hc⟩)
            · rw [hBe] at hc
              exact absurd hc (by decide)
            · rw [← heq] at hc
              exact absurd hc (fun hx => hne2 (heq ▸ hx))
          rw [show endElementStep { sA with log := sA.log ++ [.unexpectedField nm] }
                = { sA with
                      log := sA.log ++ [.unexpectedField nm],
                      field := .FIELDNONE } from
              endElementStep_of_not_fin _ cA,
            show endElementStep { sB with log := sB.log ++ [.unexpectedField nm] }
                = { sB with
                      log := sB.log ++ [.unexpectedField nm],
                      field := .FIELDNONE } from
              endElementStep_of_not_fin _ cB]
          exact ⟨hres, hanime, hAe, hAsa, hAse, hBe, hBse, FEquiv_none, hP⟩
        · have cA : (sA.entry_after_anime = true ∧ sA.field = FIELDS.ENTRY) ∨
              (sA.entry_after_anime = false ∧ sA.field = FIELDS.ANIME) := Or.inl ⟨hAe, h1⟩
          have cB : (sB.entry_after_anime = true ∧ sB.field = FIELDS.ENTRY) ∨
              (sB.entry_after_anime = false ∧ sB.field = FIELDS.ANIME) := Or.inr ⟨hBe, h2⟩
          rw [show endElementStep { sA with log := sA.log ++ [.unexpectedField nm] }
                = { sA with
                      log := sA.log ++ [.unexpectedField nm],
                      res := sA.res ++ [sA.anime],
                      anime := {},
                      field := .FIELDNONE } from
              endElementStep_of_fin _ cA,
            show endElementStep { sB with log := sB.log ++ [.unexpectedField nm] }
                = { sB with
                      log := sB.log ++ [.unexpectedField nm],
                      res := sB.res ++ [sB.anime],
                      anime := {},
                      field := .FIELDNONE } from
              endElementStep_of_fin _ cB]
          refine ⟨?_, rfl, hAe, hAsa, hAse, hBe, hBse, FEquiv_none, hP⟩
          show sA.res ++ [sA.anime] = sB.res ++ [sB.anime]
          rw [hres, hanime]
      | text =>
        rw [step_text sA nm v hname, step_text sB nm v hname, eA, eB]
        obtain ⟨fA1, fA2, fA3, fA4, fA5, fA6⟩ :=
          textStep_flags { sA with log := sA.log ++ [.unexpectedField nm] } nm v
        obtain ⟨fB1, fB2, fB3, fB4, fB5, fB6⟩ :=
          textStep_flags { sB with log := sB.log ++ [.unexpectedField nm] } nm v
        refine ⟨?_, ?_, ?_, ?_, ?_, ?_, ?_, ?_, ?_⟩
        · rw [fA6, fB6]
          exact hres
        · exact textStep_anime_peq _ _ nm nm v hP hanime
        · rw [fA1]
          exact hAe
        · rw [fA2]
          exact hAsa
        · rw [fA3]
          exact hAse
        · rw [fB1]
          exact hBe
        · rw [fB3]
          exact hBse
        · rw [fA4, fB4]
          exact hF
        · rw [fA5, fB5]
          exact hP
      | sigWhitespace =>
        rw [step_ws sA nm v hname, step_ws sB nm v hname, eA, eB]
        exact ⟨hres, hanime, hAe, hAsa, hAse, hBe, hBse, hF, hP⟩
      | other =>
        rw [step_other sA nm v hname, step_other sB nm v hname, eA, eB]
        exact ⟨hres, hanime, hAe, hAsa, hAse, hBe, hBse, hF, hP⟩
    · -- known name resolving to a non-wrapper tag
      have hfE : f ≠ .ENTRY := by
        intro hc
        subst hc
        exact hE (field_map_eq_entry nm hfm)
      have hfA : f ≠ .ANIME := by
        intro hc
        subst hc
        exact hA (field_map_eq_anime nm hfm)
      have eA : resolveStep sA nm = { sA with prev_field := sA.field, field := f } :=
        resolveStep_known sA nm f hfm
      have eB : resolveStep sB nm = { sB with prev_field := sB.field, field := f } :=
        resolveStep_known sB nm f hfm
      cases nt with
      | element =>
        rw [step_element sA nm v hname, step_element sB nm v hname, eA, eB]
        unfold elementStep
        refine ⟨hres, hanime, ?_, ?_, ?_, ?_, ?_, ?_, ?_⟩
        · show (if f = .ENTRY ∧ sA.seen_anime = true ∧ sA.seen_entry = false then true
                else sA.entry_after_anime) = true
          split
          · rfl
          · exact hAe
        · show (if f = .ANIME then true else sA.seen_anime) = true
          rw [if_neg hfA]
          exact hAsa
        · show (if f = .ENTRY then true else sA.seen_entry) = true
          rw [if_neg hfE]
          exact hAse
        · show (if f = .ENTRY ∧ sB.seen_anime = true ∧ sB.seen_entry = false then true
                else sB.entry_after_anime) = false
          rw [if_neg (fun hc => hfE hc.1)]
          exact hBe
        · show (if f = .ENTRY then true else sB.seen_entry) = true
          rw [if_neg hfE]
          exact hBse
        · exact FEquiv_same f hfE hfA
        · exact FEquiv_to_PEquiv _ _ hF
      | endElement =>
        rw [step_endElement sA nm v hname, step_endElement sB nm v hname, eA, eB]
        have cA : ¬((sA.entry_after_anime = true ∧ f = FIELDS.ENTRY) ∨
            (sA.entry_after_anime = false ∧ f = FIELDS.ANIME)) := by
          rintro (⟨_, hc⟩ | ⟨hc, _⟩)
          · exact hfE hc
          · rw [hAe] at hc
            exact absurd hc (by decide)
        have cB : ¬((sB.entry_after_anime = true ∧ f = FIELDS.ENTRY) ∨
            (sB.entry_after_anime = false ∧ f = FIELDS.ANIME)) := by
          rintro (⟨hc, _⟩ | ⟨_, hc⟩)
          · rw [hBe] at hc
            exact absurd hc (by decide)
          · exact hfA hc
        rw [show endElementStep { sA with prev_field := sA.field, field := f }
              = { sA with prev_field := sA.field, field := .FIELDNONE } from
            endElementStep_of_not_fin _ cA,
          show endElementStep { sB with prev_field := sB.field, field := f }
              = { sB with prev_field := sB.field, field := .FIELDNONE } from
            endElementStep_of_not_fin _ cB]
        exact ⟨hres, hanime, hAe, hAsa, hAse, hBe, hBse, FEquiv_none, FEquiv_to_PEquiv _ _ hF⟩
      | text =>
        rw [step_text sA nm v hname, step_text sB nm v hname, eA, eB]
        obtain ⟨fA1, fA2, fA3, fA4, fA5, fA6⟩ :=
          textStep_flags { sA with prev_field := sA.field, field := f } nm v
        obtain ⟨fB1, fB2, fB3, fB4, fB5, fB6⟩ :=
          textStep_flags { sB with prev_field := sB.field, field := f } nm v
        refine ⟨?_, ?_, ?_, ?_, ?_, ?_, ?_, ?_, ?_⟩
        · rw [fA6, fB6]
          exact hres
        · refine textStep_anime_peq _ _ nm nm v ?_ hanime
          exact FEquiv_to_PEquiv _ _ hF
        · rw [fA1]
          exact hAe
        · rw [fA2]
          exact hAsa
        · rw [fA3]
          exact hAse
        · rw [fB1]
          exact hBe
        · rw [fB3]
          exact hBse
        · rw [fA4, fB4]
          exact FEquiv_same f hfE hfA
        · rw [fA5, fB5]
          exact FEquiv_to_PEquiv _ _ hF
      | sigWhitespace =>
        rw [step_ws sA nm v hname, step_ws sB nm v hname, eA, eB]
        exact ⟨hres, hanime, hAe, hAsa, hAse, hBe, hBse, FEquiv_same f hfE hfA,
          FEquiv_to_PEquiv _ _ hF⟩
      | other =>
        rw [step_other sA nm v hname, step_other sB nm v hname, eA, eB]
        exact ⟨hres, hanime, hAe, hAsa, hAse, hBe, hBse, FEquiv_same f hfE hfA,
          FEquiv_to_PEquiv _ _ hF⟩

theorem sim_fold (ts : List Token) : ∀ sA sB : DState,
    (∀ t ∈ ts, t.name ≠ "anime" ∧ t.name ≠ "entry") → Sim sA sB →
    Sim (ts.foldl step sA) (ts.foldl step sB) := by
  induction ts with
  | nil => intro sA sB _ h; exact h
  | cons t ts ih =>
    intro sA sB hok h
    have ht := hok t (List.mem_cons_self t ts)
    exact ih _ _ (fun u hu => hok u (List.mem_cons_of_mem t hu))
      (sim_step sA sB t ht.1 ht.2 h)

theorem itemTokens_names (it : List (String × String))
    (hok : ∀ p ∈ it, p.1 ≠ "anime" ∧ p.1 ≠ "entry") :
    ∀ t ∈ itemTokens it, t.name ≠ "anime" ∧ t.name ≠ "entry" := by
  intro t ht
  unfold itemTokens at ht
  rw [List.mem_flatMap] at ht
  obtain ⟨p, hp, htok⟩ := ht
  unfold fieldTokens at htok
  rcases List.mem_append.1 htok with h1 | h2
  · rcases List.mem_append.1 h1 with h3 | h4
    · rw [List.mem_singleton] at h3
      subst h3
      exact hok p hp
    · split at h4
      · cases h4
      · rw [List.mem_singleton] at h4
        subst h4
        exact ⟨(by decide : ("#text" : String) ≠ "anime"),
          (by decide : ("#text" : String) ≠ "entry")⟩
  · rw [List.mem_singleton] at h2
    subst h2
    exact hok p hp

/-- Opening the per-item wrapper takes the two runs from the between-items
relation into the in-item relation. -/
theorem sim0_start (sA sB : DState) (h : Sim0 sA sB) :
    Sim (step sA (startTok "entry")) (step sB (startTok "anime")) := by
  obtain ⟨hres, hanime, hAe, hAsa, hBe, hBse, hf, hP⟩ := h
  rw [show startTok "entry" = ⟨.element, "entry", ""⟩ from rfl,
    step_element sA "entry" "" (by decide),
    resolveStep_known sA "entry" .ENTRY rfl,
    show startTok "anime" = ⟨.element, "anime", ""⟩ from rfl,
    step_element sB "anime" "" (by decide),
    resolveStep_known sB "anime" .ANIME rfl]
  unfold elementStep
  refine ⟨hres, hanime, ?_, ?_, ?_, ?_, ?_, Or.inr ⟨rfl, rfl⟩, ?_⟩
  · show (if FIELDS.ENTRY = .ENTRY ∧ sA.seen_anime = true ∧ sA.seen_entry = false then true
          else sA.entry_after_anime) = true
    rcases hse : sA.seen_entry with _ | _
    · rw [if_pos ⟨rfl, hAsa, rfl⟩]
    · rw [if_neg (fun hc => absurd hc.2.2 (by decide))]
      rw [hAe]
      exact hse
  · show (if FIELDS.ENTRY = .ANIME then true else sA.seen_anime) = true
    rw [if_neg (by decide)]
    exact hAsa
  · show (if FIELDS.ENTRY = .ENTRY then true else sA.seen_entry) = true
    rw [if_pos rfl]
  · show (if FIELDS.ANIME = .ENTRY ∧ sB.seen_anime = true ∧ sB.seen_entry = false then true
          else sB.entry_after_anime) = false
    rw [if_neg (fun hc => absurd hc.1 (by decide))]
    exact hBe
  · show (if FIELDS.ANIME = .ENTRY then true else sB.seen_entry) = true
    rw [if_neg (by decide)]
    exact hBse
  · show PEquiv sA.field sB.field
    rcases hf with ⟨h1, h2⟩ | ⟨h1, h2⟩
    · rw [h1, h2]
      exact Or.inr ⟨rfl, rfl⟩
    · rw [h1, h2]
      exact Or.inl rfl

/-- Closing the per-item wrapper finalizes one record in both runs and
restores the between-items relation. -/
theorem sim_end (sA sB : DState) (h : Sim sA sB) :
    Sim0 (step sA (endTok "entry")) (step sB (endTok "anime")) ∧
    (step sA (endTok "entry")).seen_entry = true := by
  obtain ⟨hres, hanime, hAe, hAsa, hAse, hBe, hBse, hF, hP⟩ := h
  rw [show endTok "entry" = ⟨.endElement, "entry", ""⟩ from rfl,
    step_endElement sA "entry" "" (by decide),
    resolveStep_known sA "entry" .ENTRY rfl,
    show endTok "anime" = ⟨.endElement, "anime", ""⟩ from rfl,
    step_endElement sB "anime" "" (by decide),
    resolveStep_known sB "anime" .ANIME rfl]
  rw [endElementStep_of_fin { sA with prev_field := sA.field, field := .ENTRY }
      (Or.inl ⟨hAe, rfl⟩),
    endElementStep_of_fin { sB with prev_field := sB.field, field := .ANIME }
      (Or.inr ⟨hBe, rfl⟩)]
  refine ⟨⟨?_, rfl, ?_, hAsa, hBe, hBse, Or.inr ⟨rfl, rfl⟩, FEquiv_to_PEquiv _ _ hF⟩, hAse⟩
  · show sA.res ++ [sA.anime] = sB.res ++ [sB.anime]
    rw [hres, hanime]
  · show sA.entry_after_anime = sA.seen_entry
    rw [hAe, hAse]

/-- Processing one whole item group preserves the between-items relation
and leaves the shape-A run with `seen_entry` set. -/
theorem sim0_group (it : List (String × String)) (sA sB : DState)
    (hok : ∀ p ∈ it, p.1 ≠ "anime" ∧ p.1 ≠ "entry") (h : Sim0 sA sB) :
    Sim0 (List.foldl step sA ([startTok "entry"] ++ itemTokens it ++ [endTok "entry"]))
      (List.foldl step sB ([startTok "anime"] ++ itemTokens it ++ [endTok "anime"])) ∧
    (List.foldl step sA ([startTok "entry"] ++ itemTokens it ++ [endTok "entry"])).seen_entry
      = true := by
  simp only [List.foldl_append, List.foldl_cons, List.foldl_nil]
  exact sim_end _ _ (sim_fold (itemTokens it) _ _ (itemTokens_names it hok) (sim0_start sA sB h))

/-- Folding all item groups preserves the between-items relation. -/
theorem sim0_items (items : List (List (String × String))) : ∀ sA sB : DState,
    (∀ it ∈ items, ∀ p ∈ it, p.1 ≠ "anime" ∧ p.1 ≠ "entry") → Sim0 sA sB →
    Sim0 (List.foldl step sA
        (items.flatMap (fun it => [startTok "entry"] ++ itemTokens it ++ [endTok "entry"])))
      (List.foldl step sB
        (items.flatMap (fun it => [startTok "anime"] ++ itemTokens it ++ [endTok "anime"]))) ∧
    (items ≠ [] →
      (List.foldl step sA
        (items.flatMap (fun it => [startTok "entry"] ++ itemTokens it ++ [endTok "entry"]))).seen_entry
      = true) := by
  induction items with
  | nil =>
    intro sA sB _ h
    exact ⟨h, fun hc => absurd rfl hc⟩
  | cons it items ih =>
    intro sA sB hok h
    obtain ⟨h1, hseen⟩ := sim0_group it sA sB (hok it (List.mem_cons_self it items)) h
    obtain ⟨h2, _⟩ := ih _ _ (fun u hu => hok u (List.mem_cons_of_mem it hu)) h1
    constructor
    · simp only [List.flatMap_cons, List.foldl_append] at h2 ⊢
      exact h2
    · intro _
      simp only [List.flatMap_cons, List.foldl_append] at hseen ⊢
      exact (foldl_flags_mono _ _).2.1 hseen

/-- Counterexample to C1: the two degenerate streams encoding the empty
set of items disagree — `<anime></anime>` (shape A with zero items)
finalizes one empty record at its closing tag, while `<entry></entry>`
(shape B with zero items) finalizes none. -/
theorem claim_C1_cex :
    okItems [] = true ∧
    deserialize (shapeA []) ≠ deserialize (shapeB []) := by
  refine ⟨rfl, ?_⟩
  decide

theorem end_anime_res (S : DState) (h : S.entry_after_anime = true) :
    (step S (endTok "anime")).res = S.res := by
  have e1 : step S (endTok "anime")
      = endElementStep { S with prev_field := S.field, field := .ANIME } := by
    show step S ⟨.endElement, "anime", ""⟩ = _
    rw [step_endElement S "anime" "" (by decide), resolveStep_known S "anime" .ANIME rfl]
  have hcnd : ¬((S.entry_after_anime = true ∧ FIELDS.ANIME = FIELDS.ENTRY) ∨
      (S.entry_after_anime = false ∧ FIELDS.ANIME = FIELDS.ANIME)) := by
    rintro (⟨_, hc⟩ | ⟨hc, _⟩)
    · exact absurd hc (by decide)
    · rw [h] at hc
      cases hc
  rw [e1, endElementStep_of_not_fin _ hcnd]

theorem end_entry_res (S : DState) (h : S.entry_after_anime = false) :
    (step S (endTok "entry")).res = S.res := by
  have e1 : step S (endTok "entry")
      = endElementStep { S with prev_field := S.field, field := .ENTRY } := by
    show step S ⟨.endElement, "entry", ""⟩ = _
    rw [step_endElement S "entry" "" (by decide), resolveStep_known S "entry" .ENTRY rfl]
  have hcnd : ¬((S.entry_after_anime = true ∧ FIELDS.ENTRY = FIELDS.ENTRY) ∨
      (S.entry_after_anime = false ∧ FIELDS.ENTRY = FIELDS.ANIME)) := by
    rintro (⟨hc, _⟩ | ⟨_, hc⟩)
    · rw [h] at hc
      cases hc
    · exact absurd hc (by decide)
  rw [e1, endElementStep_of_not_fin _ hcnd]

/-- C1 (amended): for every non-empty list of logical items whose field
names avoid the two wrapper names, the shape-A and the shape-B token
streams deserialize to the same record sequence (shape independence). -/
theorem claim_C1_amended (items : List (List (String × String)))
    (hne : items ≠ []) (hok : okItems items = true) :
    deserialize (shapeA items) = deserialize (shapeB items) := by
  have hok2 : ∀ it ∈ items, ∀ p ∈ it, p.1 ≠ "anime" ∧ p.1 ≠ "entry" := by
    intro it hit p hp
    have h1 := List.all_eq_true.1 hok it hit
    have h2 := List.all_eq_true.1 h1 p hp
    exact of_decide_eq_true h2
  have hinit : Sim0 (step {} (startTok "anime")) (step {} (startTok "entry")) := by
    exact ⟨rfl, rfl, by decide, by decide, by decide, by decide,
      Or.inl ⟨rfl, rfl⟩, Or.inl rfl⟩
  obtain ⟨hsim, hseen⟩ :=
    sim0_items items (step {} (startTok "anime")) (step {} (startTok "entry")) hok2 hinit
  obtain ⟨hres, hanime2, hAe, hAsa, hBe, hBse, hfld, hP⟩ := hsim
  have hAe2 : (List.foldl step (step {} (startTok "anime"))
      (items.flatMap (fun it =>
        [startTok "entry"] ++ itemTokens it ++ [endTok "entry"]))).entry_after_anime = true := by
    rw [hAe]
    exact hseen hne
  unfold deserialize shapeA shapeB
  simp only [List.foldl_append, List.foldl_cons, List.foldl_nil]
  rw [end_anime_res _ hAe2, end_entry_res _ hBe]
  exact hres

/-- Witness for the amended C1: one item with an id and a title encodes
to the same record sequence through either shape. -/
theorem claim_C1_witness :
    ([[("id", "5"), ("title", "Foo")]] : List (List (String × String))) ≠ [] ∧
    okItems [[("id", "5"), ("title", "Foo")]] = true ∧
    deserialize (shapeA [[("id", "5"), ("title", "Foo")]]) =
      deserialize (shapeB [[("id", "5"), ("title", "Foo")]]) :=
  ⟨by decide, rfl, claim_C1_amended [[("id", "5"), ("title", "Foo")]] (by decide) rfl⟩

/-! ## Round-trip evaluation (claim C4) -/

theorem elementStep_stable (s : DState) (hsa : s.seen_anime = true) (hse : s.seen_entry = true) :
    elementStep s = s := by
  unfold elementStep
  have h1 : (if s.field = .ENTRY ∧ s.seen_anime = true ∧ s.seen_entry = false then true
             else s.entry_after_anime) = s.entry_after_anime := by
    rw [if_neg (fun hc => by rw [hse] at hc; exact absurd hc.2.2 (by decide))]
  have h2 : (if s.field = .ANIME then true else s.seen_anime) = s.seen_anime := by
    split
    · rw [hsa]
    · rfl
  have h3 : (if s.field = .ENTRY then true else s.seen_entry) = s.seen_entry := by
    split
    · rw [hse]
    · rfl
  rw [h1, h2, h3]

theorem textStep_setter (s : DState) (n v : String) (g : Anime → String → Anime)
    (hf : s.field = .FIELDTEXT) (hmm : member_map s.prev_field = some g) (hv : ¬v = "") :
    textStep s n v = { s with anime := g s.anime v } := by
  unfold textStep
  simp only [if_pos hf, if_neg hv]
  rw [hmm]

theorem runSt_start_unknown (a : Anime) (f p : FIELDS) (L : List LogEvent) (n : String)
    (hn : field_map n = none) (hname : ¬n = "") :
    step (runSt a f p L) (startTok n) = runSt a f p (L ++ [LogEvent.unexpectedField n]) := by
  rw [show startTok n = ⟨.element, n, ""⟩ from rfl, step_element _ n "" hname,
    resolveStep_unknown _ n hn]
  exact elementStep_stable _ rfl rfl

theorem runSt_start_known (a : Anime) (f p : FIELDS) (L : List LogEvent) (n : String)
    (f0 : FIELDS) (hfm : field_map n = some f0) (hname : ¬n = "") :
    step (runSt a f p L) (startTok n) = runSt a f0 f L := by
  rw [show startTok n = ⟨.element, n, ""⟩ from rfl, step_element _ n "" hname,
    resolveStep_known _ n f0 hfm]
  exact elementStep_stable _ rfl rfl

theorem runSt_text_none (a : Anime) (f p : FIELDS) (L : List LogEvent) (v : String)
    (hm : member_map f = none) (hv : ¬v = "") :
    step (runSt a f p L) (textTok v) = runSt a .FIELDTEXT f L := by
  rw [show textTok v = ⟨.text, "#text", v⟩ from rfl, step_text _ "#text" v (by decide),
    resolveStep_known _ "#text" .FIELDTEXT rfl]
  exact textStep_id _ "#text" v rfl hm hv

theorem runSt_text_some (a : Anime) (f p : FIELDS) (L : List LogEvent) (v : String)
    (g : Anime → String → Anime) (hmm : member_map f = some g) (hv : ¬v = "") :
    step (runSt a f p L) (textTok v) = runSt (g a v) .FIELDTEXT f L := by
  rw [show textTok v = ⟨.text, "#text", v⟩ from rfl, step_text _ "#text" v (by decide),
    resolveStep_known _ "#text" .FIELDTEXT rfl]
  exact textStep_setter _ "#text" v g rfl hmm hv

theorem runSt_end_unknown (a : Anime) (p : FIELDS) (L : List LogEvent) (n : String)
    (hn : field_map n = none) (hname : ¬n = "") :
    step (runSt a .FIELDTEXT p L) (endTok n) = runSt a .FIELDNONE p (L ++ [LogEvent.unexpectedField n]) := by
  rw [show endTok n = ⟨.endElement, n, ""⟩ from rfl, step_endElement _ n "" hname,
    resolveStep_unknown _ n hn]
  exact endElementStep_of_not_fin _ (by
    rintro (⟨_, hc⟩ | ⟨hc, _⟩)
    · exact FIELDS.noConfusion hc
    · exact Bool.noConfusion hc)

theorem runSt_end_unknown_nofin (a : Anime) (f p : FIELDS) (L : List LogEvent) (n : String)
    (hn : field_map n = none) (hname : ¬n = "") (hfE : f ≠ .ENTRY) :
    step (runSt a f p L) (endTok n) = runSt a .FIELDNONE p (L ++ [LogEvent.unexpectedField n]) := by
  rw [show endTok n = ⟨.endElement, n, ""⟩ from rfl, step_endElement _ n "" hname,
    resolveStep_unknown _ n hn]
  exact endElementStep_of_not_fin _ (by
    rintro (⟨_, hc⟩ | ⟨hc, _⟩)
    · exact hfE hc
    · exact Bool.noConfusion hc)

theorem runSt_end_known (a : Anime) (f p : FIELDS) (L : List LogEvent) (n : String)
    (f0 : FIELDS) (hfm : field_map n = some f0) (hname : ¬n = "") (hfE : f0 ≠ .ENTRY) :
    step (runSt a f p L) (endTok n) = runSt a .FIELDNONE f L := by
  rw [show endTok n = ⟨.endElement, n, ""⟩ from rfl, step_endElement _ n "" hname,
    resolveStep_known _ n f0 hfm]
  exact endElementStep_of_not_fin _ (by
    rintro (⟨_, hc⟩ | ⟨hc, _⟩)
    · exact hfE hc
    · exact Bool.noConfusion hc)

/-- An unknown element with a non-empty body: both warnings are logged,
the text goes through the (absent) setter of the current tag, the tag
resets. -/
theorem grpUText (a : Anime) (f p : FIELDS) (L : List LogEvent) (n v : String)
    (hn : field_map n = none) (hname : ¬n = "") (hm : member_map f = none) (hv : ¬v = "") :
    ∃ L2, List.foldl step (runSt a f p L) (fieldTokens (n, v)) = runSt a .FIELDNONE f L2 := by
  have hft : fieldTokens (n, v) = [startTok n, textTok v, endTok n] := by
    unfold fieldTokens
    rw [if_neg hv]
    rfl
  refine ⟨(L ++ [LogEvent.unexpectedField n]) ++ [LogEvent.unexpectedField n], ?_⟩
  rw [hft]
  show step (step (step (runSt a f p L) (startTok n)) (textTok v)) (endTok n) = _
  rw [runSt_start_unknown a f p L n hn hname,
    runSt_text_none a f p (L ++ [LogEvent.unexpectedField n]) v hm hv,
    runSt_end_unknown a f (L ++ [LogEvent.unexpectedField n]) n hn hname]

/-- An unknown element with an empty body (no text token). -/
theorem grpUEmpty (a : Anime) (f p : FIELDS) (L : List LogEvent) (n : String)
    (hn : field_map n = none) (hname : ¬n = "") (hfE : f ≠ .ENTRY) :
    ∃ L2, List.foldl step (runSt a f p L) (fieldTokens (n, "")) = runSt a .FIELDNONE p L2 := by
  have hft : fieldTokens (n, "") = [startTok n, endTok n] := by
    unfold fieldTokens
    rw [if_pos rfl]
    rfl
  refine ⟨(L ++ [LogEvent.unexpectedField n]) ++ [LogEvent.unexpectedField n], ?_⟩
  rw [hft]
  show step (step (runSt a f p L) (startTok n)) (endTok n) = _
  rw [runSt_start_unknown a f p L n hn hname,
    runSt_end_unknown_nofin a f p (L ++ [LogEvent.unexpectedField n]) n hn hname hfE]

/-- An unknown element between elements (both tags reset), any body. -/
theorem grpUAny (a : Anime) (L : List LogEvent) (n v : String)
    (hn : field_map n = none) (hname : ¬n = "") :
    ∃ L2, List.foldl step (runSt a .FIELDNONE .FIELDNONE L) (fieldTokens (n, v))
      = runSt a .FIELDNONE .FIELDNONE L2 := by
  by_cases hv : v = ""
  · subst hv
    exact grpUEmpty a .FIELDNONE .FIELDNONE L n hn hname (by decide)
  · exact grpUText a .FIELDNONE .FIELDNONE L n v hn hname rfl hv

/-- A known data element with a non-empty body: its registered setter
fires on the accumulator. -/
theorem grpK (a : Anime) (f p : FIELDS) (L : List LogEvent) (n v : String) (f0 : FIELDS)
    (g : Anime → String → Anime) (hfm : field_map n = some f0)
    (hmm : member_map f0 = some g) (hname : ¬n = "")
    (hfE : f0 ≠ .ENTRY) (hv : ¬v = "") :
    ∃ L2, List.foldl step (runSt a f p L) (fieldTokens (n, v))
      = runSt (g a v) .FIELDNONE .FIELDTEXT L2 := by
  have hft : fieldTokens (n, v) = [startTok n, textTok v, endTok n] := by
    unfold fieldTokens
    rw [if_neg hv]
    rfl
  refine ⟨L, ?_⟩
  rw [hft]
  show step (step (step (runSt a f p L) (startTok n)) (textTok v)) (endTok n) = _
  rw [runSt_start_known a f p L n f0 hfm hname,
    runSt_text_some a f0 f L v g hmm hv,
    runSt_end_known (g a v) .FIELDTEXT f0 L n f0 hfm hname hfE]

/-- Closing the per-item wrapper and then the envelope finalizes exactly
the accumulator. -/
theorem runSt_end_run (a : Anime) (p : FIELDS) (L : List LogEvent) :
    (step (step (runSt a .FIELDNONE p L) (endTok "entry")) (endTok "anime")).res = [a] := by
  have e1 : step (runSt a .FIELDNONE p L) (endTok "entry")
      = ({ res := [a], anime := {}, field := .FIELDNONE, prev_field := .FIELDNONE,
           entry_after_anime := true, seen_anime := true, seen_entry := true,
           log := L } : DState) := by
    rw [show endTok "entry" = ⟨.endElement, "entry", ""⟩ from rfl,
      step_endElement _ "entry" "" (by decide), resolveStep_known _ "entry" .ENTRY rfl]
    exact endElementStep_of_fin _ (Or.inl ⟨rfl, rfl⟩)
  rw [e1, end_anime_res _ rfl]

/-- Counterexample to C4: round-tripping a record whose watched-episodes
count is 12 yields a record with watched-episodes 0 — the serializer
emits the element name `episode`, which the field resolver does not know,
so the field is not reproduced. -/
theorem claim_C4_cex :
    c4Record.episodes = 12 ∧
    (deserialize (wrapAnime (serializeTokens c4Record))).map (fun a => a.episodes) = [0] :=
  ⟨rfl, by decide⟩

/-- C4 (amended): serializing any record and deserializing the body in a
minimal valid envelope reproduces ONLY the score field (the sole
serialized element name the resolver maps to a setter of the same
field); the user-status text lands in the series-status field, and every
other field of the result is a fresh default — the remaining serialized
names (`episode`, `downloaded_episodes`, `date_start`, `date_finish`,
`enable_rewatching`, `tags`, `rewatch_episode`, ...) are unknown to the
field map and are skipped. -/
theorem claim_C4_amended (r : Anime) :
    deserialize (wrapAnime (serializeTokens r)) =
      [{ series_status := intRepr r.status, score := r.score }] := by
  have e0 : step (step ({} : DState) (startTok "anime")) (startTok "entry")
      = runSt {} .ENTRY .ANIME [] := by
    decide
  obtain ⟨L1, e1⟩ := grpUText {} .ENTRY .ANIME [] "episode" (intRepr r.episodes)
    rfl (by decide) rfl (intRepr_ne_empty _)
  obtain ⟨L2, e2⟩ := grpK {} .FIELDNONE .ENTRY L1 "status" (intRepr r.status)
    .SERIESSTATUS set_series_status rfl rfl (by decide) (by decide) (intRepr_ne_empty _)
  obtain ⟨L3, e3⟩ := grpK (set_series_status {} (intRepr r.status)) .FIELDNONE .FIELDTEXT L2
    "score" (intRepr r.score) .MYSCORE set_score rfl rfl (by decide) (by decide)
    (intRepr_ne_empty _)
  obtain ⟨L4, e4⟩ := grpUText (set_score (set_series_status {} (intRepr r.status)) (intRepr r.score)) .FIELDNONE .FIELDTEXT L3
    "downloaded_episodes" (intRepr r.downloaded_items) rfl (by decide) rfl (intRepr_ne_empty _)
  obtain ⟨L5, e5⟩ := grpUAny (set_score (set_series_status {} (intRepr r.status)) (intRepr r.score)) L4
    "storage_type" "" rfl (by decide)
  obtain ⟨L6, e6⟩ := grpUAny (set_score (set_series_status {} (intRepr r.status)) (intRepr r.score)) L5
    "storage_value" "" rfl (by decide)
  obtain ⟨L7, e7⟩ := grpUAny (set_score (set_series_status {} (intRepr r.status)) (intRepr r.score)) L6
    "times_rewatched" "" rfl (by decide)
  obtain ⟨L8, e8⟩ := grpUAny (set_score (set_series_status {} (intRepr r.status)) (intRepr r.score)) L7
    "rewatch_value" "" rfl (by decide)
  obtain ⟨L9, e9⟩ := grpUAny (set_score (set_series_status {} (intRepr r.status)) (intRepr r.score)) L8
    "date_start" (renderDate r.date_start) rfl (by decide)
  obtain ⟨L10, e10⟩ := grpUAny (set_score (set_series_status {} (intRepr r.status)) (intRepr r.score)) L9
    "date_finish" (renderDate r.date_finish) rfl (by decide)
  obtain ⟨L11, e11⟩ := grpUAny (set_score (set_series_status {} (intRepr r.status)) (intRepr r.score)) L10
    "priority" "" rfl (by decide)
  obtain ⟨L12, e12⟩ := grpUAny (set_score (set_series_status {} (intRepr r.status)) (intRepr r.score)) L11
    "enable_discussion" "" rfl (by decide)
  obtain ⟨L13, e13⟩ := grpUAny (set_score (set_series_status {} (intRepr r.status)) (intRepr r.score)) L12
    "enable_rewatching" (if r.enable_reconsuming then "1" else "0") rfl (by decide)
  obtain ⟨L14, e14⟩ := grpUAny (set_score (set_series_status {} (intRepr r.status)) (intRepr r.score)) L13
    "comments" "" rfl (by decide)
  obtain ⟨L15, e15⟩ := grpUAny (set_score (set_series_status {} (intRepr r.status)) (intRepr r.score)) L14
    "fansub_group" "" rfl (by decide)
  obtain ⟨L16, e16⟩ := grpUAny (set_score (set_series_status {} (intRepr r.status)) (intRepr r.score)) L15
    "tags" (String.intercalate "; " r.tags) rfl (by decide)
  obtain ⟨L17, e17⟩ := grpUAny (set_score (set_series_status {} (intRepr r.status)) (intRepr r.score)) L16
    "rewatch_episode" (intRepr r.rewatch_episode) rfl (by decide)
  unfold deserialize wrapAnime serializeTokens serializeFields
  simp only [List.flatMap_cons, List.flatMap_nil, List.append_nil, List.foldl_append,
    List.foldl_cons, List.foldl_nil]
  rw [e0, e1, e2, e3, e4, e5, e6, e7, e8, e9, e10, e11, e12, e13, e14, e15, e16, e17, runSt_end_run]
  unfold set_score set_series_status
  rw [parse_intRepr]

end MalGtk
